import Mathlib

/-!
Shallow embedding of the red-smv repository (src/slice_parser.rs and
src/smv_parser.rs), with theorems checking the specification's claims.

Modelling conventions for the binary slice parser:
* The `BufReader` byte source is a pure cursor `Rd` (byte list plus position).
* `read_exact` consumes the requested bytes on success; when too few bytes
  remain it consumes what is available and reports an I/O error, matching
  `std::io::Read::read_exact` on a cursor at end of stream.
* `f32` values are carried as their 32-bit little-endian bit pattern (a `Nat`);
  no claim performs floating-point arithmetic.
* Rust `u32` arithmetic (`i_max - i_min + 1`, products) is modelled as
  wrapping arithmetic modulo 2^32 (release-build semantics; debug builds
  would panic on overflow, and the affected claims fail either way).
* A Rust `panic!` is a distinct terminal outcome `ParseSliceError.panicked`,
  kept separate from the source's `IOError`/`RecLengthError` variants so that
  "fails with a framing error" and "panics" are distinguishable.
* Header text payloads are kept as raw byte lists; the source's
  `String::from_utf8(..).unwrap()` decoding is not modelled (no claim
  inspects the decoded text).
-/

/-- A pure byte-stream cursor standing in for `BufReader<R>`. -/
structure Rd where
  data : List Nat
  pos : Nat
deriving DecidableEq

/-- `ParseSliceError` from src/slice_parser.rs, plus `panicked` standing for a
Rust `panic!` (see module comment). -/
inductive ParseSliceError where
  | ioError
  | recLength
  | panicked
deriving DecidableEq

/-- `u32::from_le_bytes` on (the first four of) a byte list. -/
def u32le (bs : List Nat) : Nat :=
  bs.getD 0 0 % 256 + 256 * (bs.getD 1 0 % 256) + 65536 * (bs.getD 2 0 % 256)
    + 16777216 * (bs.getD 3 0 % 256)

/-- `read_exact` into a buffer of `n` bytes. On failure the cursor is left at
end of stream (consumed what was available). -/
def Rd.readExact (rd : Rd) (n : Nat) : Except ParseSliceError (List Nat) × Rd :=
  if rd.pos + n ≤ rd.data.length then
    (.ok ((rd.data.drop rd.pos).take n), { rd with pos := rd.pos + n })
  else
    (.error .ioError, { rd with pos := rd.data.length })

/-- Read four bytes and decode them as a little-endian `u32`. -/
def Rd.readU32 (rd : Rd) : Except ParseSliceError Nat × Rd :=
  match rd.readExact 4 with
  | (.ok bs, rd') => (.ok (u32le bs), rd')
  | (.error e, rd') => (.error e, rd')

/-- Read four bytes and decode them as a little-endian `f32`, represented by
its bit pattern. -/
def Rd.readF32 (rd : Rd) : Except ParseSliceError Nat × Rd :=
  rd.readU32

/-- The value-reading loop of `parse_slice_data`: `n` successive 4-byte
little-endian values, stopping at the first failed read. -/
def readF32s : Nat → Rd → Except ParseSliceError (List Nat) × Rd
  | 0, rd => (.ok [], rd)
  | n + 1, rd =>
    match rd.readF32 with
    | (.ok v, rd') =>
      match readF32s n rd' with
      | (.ok vs, rd'') => (.ok (v :: vs), rd'')
      | (.error e, rd'') => (.error e, rd'')
    | (.error e, rd') => (.error e, rd')

/-- `Dimensions` from src/slice_parser.rs (six `u32` bounds). -/
structure Dimensions where
  i_min : Nat
  i_max : Nat
  j_min : Nat
  j_max : Nat
  k_min : Nat
  k_max : Nat
deriving DecidableEq

/-- `SliceHeader`; the three text payloads are kept as raw bytes. -/
structure SliceHeader where
  quantity : List Nat
  short_name : List Nat
  units : List Nat
  dimensions : Dimensions
deriving DecidableEq

/-- `Frame`: a timestamp and a flat payload, both as 32-bit words. -/
structure Frame where
  time : Nat
  values : List Nat
deriving DecidableEq

/-- `SliceFile`. -/
structure SliceFile where
  header : SliceHeader
  frames : List Frame
deriving DecidableEq

/-- 2^32, the `u32` modulus. -/
def w32 : Nat := 4294967296

/-- Wrapping `u32` subtraction (release-build overflow semantics). -/
def wsub32 (a b : Nat) : Nat := (a + w32 - b) % w32

/-- Wrapping `u32` addition. -/
def wadd32 (a b : Nat) : Nat := (a + b) % w32

/-- Wrapping `u32` multiplication. -/
def wmul32 (a b : Nat) : Nat := (a * b) % w32

/-- Sequencing for the `?`-style early returns: the cursor is threaded
through both success and failure. -/
def bindR {α β : Type} (x : Except ParseSliceError α × Rd)
    (f : α → Rd → Except ParseSliceError β × Rd) : Except ParseSliceError β × Rd :=
  match x with
  | (.ok a, rd) => f a rd
  | (.error e, rd) => (.error e, rd)

/-- `parse_record`: length tag, payload, repeated length tag. A tag mismatch
is a `panic!` in the source (not a returned error). -/
def parse_record (rd : Rd) : Except ParseSliceError (List Nat) × Rd :=
  bindR rd.readU32 fun rec_length rd =>
  bindR (rd.readExact rec_length) fun rec_bytes rd =>
  bindR rd.readU32 fun check_length rd =>
  if check_length ≠ rec_length then (.error .panicked, rd)
  else (.ok rec_bytes, rd)

/-- `parse_dimensions`: a 24-byte record of six `u32` values; the leading tag
must equal 24 and the trailing tag must repeat it. -/
def parse_dimensions (rd : Rd) : Except ParseSliceError Dimensions × Rd :=
  bindR rd.readU32 fun rec_length rd =>
  if rec_length ≠ 24 then (.error .recLength, rd)
  else
  bindR rd.readU32 fun i1 rd =>
  bindR rd.readU32 fun i2 rd =>
  bindR rd.readU32 fun j1 rd =>
  bindR rd.readU32 fun j2 rd =>
  bindR rd.readU32 fun k1 rd =>
  bindR rd.readU32 fun k2 rd =>
  bindR rd.readU32 fun check_length rd =>
  if check_length ≠ rec_length then (.error .recLength, rd)
  else (.ok ⟨i1, i2, j1, j2, k1, k2⟩, rd)

/-- `parse_slice_header`: three text records then the dimensions record. -/
def parse_slice_header (rd : Rd) : Except ParseSliceError SliceHeader × Rd :=
  bindR (parse_record rd) fun quantity rd =>
  bindR (parse_record rd) fun short_name rd =>
  bindR (parse_record rd) fun units rd =>
  bindR (parse_dimensions rd) fun dimensions rd =>
  (.ok ⟨quantity, short_name, units, dimensions⟩, rd)

/-- `(i_dim * j_dim * k_dim) as usize`: the per-frame value count, with the
product taken in `u32` arithmetic before the cast. -/
def n_values (i_dim j_dim k_dim : Nat) : Nat := wmul32 (wmul32 i_dim j_dim) k_dim

/-- `parse_slice_data`: length tag, `i_dim * j_dim * k_dim` 4-byte values
(`u32` product, cast to `usize`), trailing tag; only the two tags are
compared. -/
def parse_slice_data (i_dim j_dim k_dim : Nat) (rd : Rd) :
    Except ParseSliceError (List Nat) × Rd :=
  bindR rd.readU32 fun rec_length rd =>
  bindR (readF32s (n_values i_dim j_dim k_dim) rd) fun values rd =>
  bindR rd.readU32 fun check_length rd =>
  if check_length ≠ rec_length then (.error .recLength, rd)
  else (.ok values, rd)

/-- `parse_data_set`: the framed time value then the framed payload record. -/
def parse_data_set (i_dim j_dim k_dim : Nat) (rd : Rd) :
    Except ParseSliceError Frame × Rd :=
  bindR rd.readU32 fun rec_length rd =>
  bindR rd.readF32 fun time rd =>
  bindR rd.readU32 fun check_length rd =>
  if check_length ≠ rec_length then (.error .recLength, rd)
  else
  bindR (parse_slice_data i_dim j_dim k_dim rd) fun values rd =>
  (.ok ⟨time, values⟩, rd)

/-- `SliceParser`: the reader cursor, the parsed header, the current frame
index and the remembered header byte length. -/
structure SliceParser where
  rd : Rd
  header : SliceHeader
  current_frame : Nat
  header_length : Nat
deriving DecidableEq

/-- `i_max - i_min + 1` in `u32` arithmetic, as computed in `parse_frame` and
`frame_length`. -/
def Dimensions.i_dim (d : Dimensions) : Nat := wadd32 (wsub32 d.i_max d.i_min) 1

/-- `j_max - j_min + 1` in `u32` arithmetic. -/
def Dimensions.j_dim (d : Dimensions) : Nat := wadd32 (wsub32 d.j_max d.j_min) 1

/-- `k_max - k_min + 1` in `u32` arithmetic. -/
def Dimensions.k_dim (d : Dimensions) : Nat := wadd32 (wsub32 d.k_max d.k_min) 1

/-- `SliceParser::new`: parse the header, remember the stream position just
after it. -/
def SliceParser.new (rd : Rd) : Except ParseSliceError SliceParser :=
  match parse_slice_header rd with
  | (.ok header, rd') => .ok ⟨rd', header, 0, rd'.pos⟩
  | (.error e, _) => .error e

/-- `SliceParser::parse_frame`: decode one frame at the cursor; the frame
counter advances only on success. -/
def SliceParser.parse_frame (p : SliceParser) :
    Except ParseSliceError Frame × SliceParser :=
  match parse_data_set p.header.dimensions.i_dim p.header.dimensions.j_dim
      p.header.dimensions.k_dim p.rd with
  | (.ok f, rd') => (.ok f, { p with rd := rd', current_frame := p.current_frame + 1 })
  | (.error e, rd') => (.error e, { p with rd := rd' })

/-- `SliceParser::frame_length`: 12 bytes for the framed time record plus
`4 + n_values * 4 + 4` for the framed payload record. -/
def SliceParser.frame_length (p : SliceParser) : Nat :=
  let time_length := 4 + 4 + 4
  let nv := n_values p.header.dimensions.i_dim p.header.dimensions.j_dim
    p.header.dimensions.k_dim
  let data_length := 4 + nv * 4 + 4
  time_length + data_length

/-- `SliceParser::seek_frame`: seek to `header_length + frame_length * frame`
and return the new position. -/
def SliceParser.seek_frame (p : SliceParser) (frame : Nat) : Nat × SliceParser :=
  let off := p.header_length + p.frame_length * frame
  (off, { p with rd := { p.rd with pos := off } })

/-- `SliceParser::get_frame`: seek, set the frame counter, then `parse_frame`. -/
def SliceParser.get_frame (p : SliceParser) (frame : Nat) :
    Except ParseSliceError Frame × SliceParser :=
  let p1 := (p.seek_frame frame).2
  let p2 := { p1 with current_frame := frame }
  p2.parse_frame

/-- `Iterator::next` for `SliceParser`: unconditionally
`Some(self.parse_frame())`. -/
def SliceParser.iterNext (p : SliceParser) :
    Option (Except ParseSliceError Frame × SliceParser) :=
  some p.parse_frame

/-- The parser state after `n` sequential `parse_frame` calls. -/
def stepN (p : SliceParser) : Nat → SliceParser
  | 0 => p
  | n + 1 => stepN p.parse_frame.2 n

/-- The result of the `(n+1)`-th sequential `parse_frame` call. -/
def seqRead (p : SliceParser) (n : Nat) : Except ParseSliceError Frame × SliceParser :=
  (stepN p n).parse_frame

/-- The frame-accumulation loop of `parse_slice_file`: keep decoding frames,
stopping (and discarding the failure) at the first error. `fuel` bounds the
recursion; every successful frame consumes at least 20 bytes, so
`data.length + 1` steps are always enough (`collectFrames_spec`). -/
def collectFrames : SliceParser → Nat → List Frame
  | _, 0 => []
  | p, fuel + 1 =>
    match p.parse_frame with
    | (.ok f, p') => f :: collectFrames p' fuel
    | (.error _, _) => []

/-- `parse_slice_file`: open the parser then accumulate all frames decoded
before the first failure. -/
def parse_slice_file (rd : Rd) : Except ParseSliceError SliceFile :=
  match SliceParser.new rd with
  | .ok p => .ok ⟨p.header, collectFrames p (p.rd.data.length + 1)⟩
  | .error e => .error e

/-- The little-endian `u32` laid out at byte offset `pos` of `data`. -/
def u32At (data : List Nat) (pos : Nat) : Nat := u32le ((data.drop pos).take 4)

/-- The `n` consecutive 32-bit words laid out at byte offset `pos`. -/
def wordsAt (data : List Nat) (pos : Nat) : Nat → List Nat
  | 0 => []
  | n + 1 => u32At data pos :: wordsAt data (pos + 4) n

/-!
Embedding of src/smv_parser.rs.

Conventions:
* `f64` fields are carried as their source tokens (`F64 := String`): no claim
  performs floating-point arithmetic, and the parser only moves these tokens
  around. Rust's `f64::from_str` validation (whose failure would panic through
  `parse().unwrap()`) is not modelled.
* Integer fields (`u64`, `usize`, `i64`, `i32`) are parsed faithfully
  (`parseNat`, `parseInt`, `parseI32`), including overflow bounds.
* A Rust `panic!`/`unwrap()` failure is the outcome `SmvFail.panicked`; errors
  propagated with `?` are `SmvFail.err`. In the `FromStr` impls a missing
  token yields `Err(())` while a malformed token panics; both surface as
  `none` here, because every caller in the parser immediately `unwrap()`s the
  result, turning either into a panic.
* The external `chid` crate's `Title`/`Chid` types are modelled as plain
  strings whose `parse` always succeeds (their grammar is not this
  repository's code and no claim depends on it).
-/

/-- Raw token standing in for a parsed `f64` (see section comment). -/
abbrev F64 := String

/-- Identity stand-in for `f64::from_str` on a token (see section comment). -/
def parseF64 (s : String) : F64 := s

/-- Decimal value of a digit list. -/
def digitsVal (cs : List Char) : Nat :=
  cs.foldl (fun acc c => acc * 10 + (c.toNat - 48)) 0

/-- `u64`/`usize` `from_str`: optional `+`, one or more digits, value below
2^64. -/
def parseNat (s : String) : Option Nat :=
  let cs := match s.data with
    | '+' :: rest => rest
    | cs => cs
  if !cs.isEmpty && cs.all Char.isDigit then
    let v := digitsVal cs
    if v < 18446744073709551616 then some v else none
  else none

/-- `i64::from_str`: optional sign, digits, two's-complement bounds. -/
def parseInt (s : String) : Option Int :=
  let (neg, cs) := match s.data with
    | '-' :: rest => (true, rest)
    | '+' :: rest => (false, rest)
    | cs => (false, cs)
  if !cs.isEmpty && cs.all Char.isDigit then
    let v := digitsVal cs
    if neg then
      if v ≤ 9223372036854775808 then some (-(v : Int)) else none
    else
      if v < 9223372036854775808 then some (v : Int) else none
  else none

/-- `i32::from_str`. -/
def parseI32 (s : String) : Option Int :=
  let (neg, cs) := match s.data with
    | '-' :: rest => (true, rest)
    | '+' :: rest => (false, rest)
    | cs => (false, cs)
  if !cs.isEmpty && cs.all Char.isDigit then
    let v := digitsVal cs
    if neg then
      if v ≤ 2147483648 then some (-(v : Int)) else none
    else
      if v < 2147483648 then some (v : Int) else none
  else none

/-- Drop leading whitespace characters (structural helper). -/
def dropWhileWs : List Char → List Char
  | [] => []
  | c :: cs => if c.isWhitespace then dropWhileWs cs else c :: cs

/-- `str::trim`: remove leading and trailing whitespace. Implemented
structurally on the character list so that it evaluates inside the kernel. -/
def trimStr (s : String) : String :=
  String.mk ((dropWhileWs ((dropWhileWs s.data).reverse)).reverse)

/-- Worker for `splitWhitespace`: `cur` holds the current token reversed. -/
def swAux : List Char → List Char → List String
  | [], cur => if cur.isEmpty then [] else [String.mk cur.reverse]
  | c :: cs, cur =>
    if c.isWhitespace then
      if cur.isEmpty then swAux cs [] else String.mk cur.reverse :: swAux cs []
    else swAux cs (c :: cur)

/-- `str::split_whitespace`: whitespace-separated tokens, no empties.
Implemented structurally so that it evaluates inside the kernel. -/
def splitWhitespace (s : String) : List String := swAux s.data []

/-- Worker for `splitChar`. -/
def splitCharAux (sep : Char) : List Char → List Char → List String
  | [], cur => [String.mk cur.reverse]
  | c :: cs, cur =>
    if c = sep then String.mk cur.reverse :: splitCharAux sep cs []
    else splitCharAux sep cs (c :: cur)

/-- `str::split(sep)` for a single separator character (keeps empty pieces,
like the Rust method). -/
def splitChar (sep : Char) (s : String) : List String := splitCharAux sep s.data []

/-- `line.starts_with(|c| !c.is_whitespace())`: the block-header test. -/
def startsNonWs (s : String) : Bool :=
  match s.data with
  | [] => false
  | c :: _ => !c.isWhitespace

/-- `line.starts_with(|c| c.is_whitespace())`. -/
def startsWs (s : String) : Bool :=
  match s.data with
  | [] => false
  | c :: _ => c.isWhitespace

/-- `str::strip_prefix(' ')` (a single space character exactly). -/
def stripLeadingSpace (s : String) : Option String :=
  match s.data with
  | ' ' :: rest => some (String.mk rest)
  | _ => none

/-- `line.find(|c| c.is_whitespace())` followed by `split_at`: block-keyword
and remainder (the remainder keeps its leading whitespace character). -/
def splitAtFirstWs (s : String) : String × String :=
  match s.data.findIdx? Char.isWhitespace with
  | some n => (String.mk (s.data.take n), String.mk (s.data.drop n))
  | none => (s, "")

/-- `Rgbf`. -/
structure Rgbf where
  r : F64
  g : F64
  b : F64
deriving DecidableEq

/-- `Rgbaf`. -/
structure Rgbaf where
  r : F64
  g : F64
  b : F64
  a : F64
deriving DecidableEq

/-- `Rgbaf::new`. -/
def Rgbaf.new (r g b a : F64) : Rgbaf := ⟨r, g, b, a⟩

/-- `GridCoord` (`i64`). -/
abbrev GridCoord := Int

/-- `Coord` (`f64`, carried as a token). -/
abbrev Coord := F64

/-- `GridRegion`: a sextuple of grid coordinates. -/
structure GridRegion where
  i1 : GridCoord
  i2 : GridCoord
  j1 : GridCoord
  j2 : GridCoord
  k1 : GridCoord
  k2 : GridCoord
deriving DecidableEq

/-- `GridRegion::new`. -/
def GridRegion.new (i1 i2 j1 j2 k1 k2 : GridCoord) : GridRegion :=
  ⟨i1, i2, j1, j2, k1, k2⟩

/-- `Xb`: a sextuple of real coordinates. -/
structure Xb where
  x1 : Coord
  x2 : Coord
  y1 : Coord
  y2 : Coord
  z1 : Coord
  z2 : Coord
deriving DecidableEq

/-- `Xb::new`. -/
def Xb.new (x1 x2 y1 y2 z1 z2 : Coord) : Xb := ⟨x1, x2, y1, y2, z1, z2⟩

/-- `Xyz`. -/
structure Xyz where
  x : Coord
  y : Coord
  z : Coord
deriving DecidableEq

/-- `Xyz::new`. -/
def Xyz.new (x y z : Coord) : Xyz := ⟨x, y, z⟩

/-- `SurfIndex` (`u64`). -/
abbrev SurfIndex := Nat

/-- `Surfaces`: surface indices for each side of an obst. -/
structure Surfaces where
  min_x : SurfIndex
  max_x : SurfIndex
  min_y : SurfIndex
  max_y : SurfIndex
  min_z : SurfIndex
  max_z : SurfIndex
deriving DecidableEq

/-- `Surfaces::new`. -/
def Surfaces.new (min_x max_x min_y max_y min_z max_z : SurfIndex) : Surfaces :=
  ⟨min_x, max_x, min_y, max_y, min_z, max_z⟩

/-- `SmvSurface`. -/
structure SmvSurface where
  name : String
  ignition_temperature : F64
  emissivity : F64
  surface_type : Int
  t_width : F64
  t_height : F64
  color : Rgbaf
  texture_file : String
deriving DecidableEq

/-- `SmvObst`. -/
structure SmvObst where
  xb_exact : Xb
  id : Int
  surfaces : Surfaces
  ijk : GridRegion
  colour_index : Int
  block_type : Int
deriving DecidableEq

/-- `ObstFirstHalf`. -/
structure ObstFirstHalf where
  xb_exact : Xb
  blockage_id : Int
  surfaces : Surfaces
  texture_origin : Option Xyz
deriving DecidableEq

/-- `ObstSecondHalf`. -/
structure ObstSecondHalf where
  ijk : GridRegion
  color_index : Int
  block_type : Int
deriving DecidableEq

/-- `SmvObst::new`: first-half geometry with second-half grid data. -/
def SmvObst.new (half1 : ObstFirstHalf) (half2 : ObstSecondHalf) : SmvObst :=
  { xb_exact := half1.xb_exact
    id := half1.blockage_id
    surfaces := half1.surfaces
    ijk := half2.ijk
    colour_index := half2.color_index
    block_type := half2.block_type }

/-- `SmvVent`. -/
structure SmvVent where
  xb_exact : Xb
  vent_id : Nat
  s_num : Nat
  texture_origin : Option Xyz
  ijk : GridRegion
  vent_index : Int
  vent_type : Int
  color : Option Rgbaf
deriving DecidableEq

/-- `VentFirstHalf`. -/
structure VentFirstHalf where
  xb_exact : Xb
  vent_id : Nat
  s_num : Nat
  texture_origin : Option Xyz
deriving DecidableEq

/-- `VentSecondHalf`. -/
structure VentSecondHalf where
  ijk : GridRegion
  vent_index : Int
  vent_type : Int
  color : Option Rgbaf
deriving DecidableEq

/-- `VentSecondHalf::new`. -/
def VentSecondHalf.new (ijk : GridRegion) (vent_index vent_type : Int)
    (color : Option Rgbaf) : VentSecondHalf :=
  ⟨ijk, vent_index, vent_type, color⟩

/-- `SmvVent::new`. -/
def SmvVent.new (half1 : VentFirstHalf) (half2 : VentSecondHalf) : SmvVent :=
  { xb_exact := half1.xb_exact
    vent_id := half1.vent_id
    s_num := half1.s_num
    texture_origin := half1.texture_origin
    ijk := half2.ijk
    vent_index := half2.vent_index
    vent_type := half2.vent_type
    color := half2.color }

/-- `ViewTimes`. -/
structure ViewTimes where
  tour_tstart : F64
  tour_tstop : F64
  tour_ntimes : Nat
deriving DecidableEq

/-- `Slcf`. -/
structure Slcf where
  cell_centred : Bool
  vs : String
  filename : String
  long_name : String
  short_name : String
  units : String
deriving DecidableEq

/-- `Prt5`. -/
structure Prt5 where
  n : Nat
  filename : String
  a : Int
  b : Int
deriving DecidableEq

/-- `Bndf`. -/
structure Bndf where
  a : Nat
  b : Nat
  filename : String
  long_name : String
  short_name : String
  units : String
deriving DecidableEq

/-- `GridBlock`. -/
structure GridBlock where
  name : String
  i_bar : Nat
  j_bar : Nat
  k_bar : Nat
  mesh_type : Nat
deriving DecidableEq

/-- `PdimBlock`. -/
structure PdimBlock where
  xbar0 : F64
  xbar : F64
  ybar0 : F64
  ybar : F64
  zbar0 : F64
  zbar : F64
  color : Rgbf
deriving DecidableEq

/-- `TrnEntry`. -/
structure TrnEntry where
  i : Nat
  f : F64
deriving DecidableEq

/-- `Axis`. -/
inductive Axis where
  | X
  | Y
  | Z
deriving DecidableEq

/-- `SmvEvent` (struct variants flattened positionally as `n`, `i`, `t`). -/
inductive SmvEvent where
  | OpenVent (n i : Nat) (t : F64)
  | CloseVent (n i : Nat) (t : F64)
  | ShowObst (n i : Nat) (t : F64)
  | HideObst (n i : Nat) (t : F64)
deriving DecidableEq

/-- `SmvDeviceAct`. -/
structure SmvDeviceAct where
  name : String
  n : Nat
  i : Nat
  v : F64
deriving DecidableEq

/-- `SmvDevice`. -/
structure SmvDevice where
  name : String
  quantity : String
  p1 : Xyz
  p2 : Xyz
  ps : Option (Xyz × Xyz)
  beam_type : String
  state0 : Int
  nparams : Int
deriving DecidableEq

/-- `Smoke3dType`. -/
inductive Smoke3dType where
  | F
  | G
deriving DecidableEq

/-- `Smoke3d`. -/
structure Smoke3d where
  smoke_type : Smoke3dType
  mesh : Nat
  file_name : String
  long_name : String
  short_name : String
  units : String
deriving DecidableEq

/-- `CSVEntry`. -/
structure CSVEntry where
  type_ : String
  filename : String
deriving DecidableEq

/-- `chid::Title`, modelled as a plain string (external crate). -/
abbrev Title := String

/-- `chid::Chid`, modelled as a plain string (external crate). -/
abbrev Chid := String

/-- `SmvMesh`. -/
structure SmvMesh where
  name : String
  i_bar : Nat
  j_bar : Nat
  k_bar : Nat
  mesh_type : Nat
  obsts : List SmvObst
  vents : List SmvVent
  trnx : List TrnEntry
  trny : List TrnEntry
  trnz : List TrnEntry
  dims : Xb
  color : Rgbf
  offset : Xyz
deriving DecidableEq

/-- `SmvMesh::new`: zip one grid block with its parallel per-mesh data. -/
def SmvMesh.new (grid : GridBlock) (obsts : List SmvObst) (vents : List SmvVent)
    (trnx trny trnz : List TrnEntry) (pdims : PdimBlock) (offset : Xyz) : SmvMesh :=
  { name := grid.name
    i_bar := grid.i_bar
    j_bar := grid.j_bar
    k_bar := grid.k_bar
    mesh_type := grid.mesh_type
    obsts := obsts
    vents := vents
    trnx := trnx
    trny := trny
    trnz := trnz
    dims := { x1 := pdims.xbar0, x2 := pdims.xbar, y1 := pdims.ybar0
              y2 := pdims.ybar, z1 := pdims.zbar0, z2 := pdims.zbar }
    color := pdims.color
    offset := offset }

/-- `SmvFile` (the immutable manifest). -/
structure SmvFile where
  title : Title
  chid : Chid
  input_filename : String
  endf_filename : Option String
  fds_version : Option String
  surf_def : Option String
  csvfs : List CSVEntry
  meshes : List SmvMesh
  surfs : List SmvSurface
  xyzs : List String
  solid_ht3d : Option Int
  view_times : Option ViewTimes
  albedo : Option F64
  i_blank : Option Nat
  gvec : Option Xyz
  events : List SmvEvent
  device_acts : List SmvDeviceAct
  slcfs : List Slcf
  prt5s : List Prt5
  bndfs : List Bndf
  devcs : List SmvDevice
  texture_origin : Option Xyz
deriving DecidableEq

/-- `PendingSmvFile`: the mutable aggregate accumulated during the scan. -/
structure PendingSmvFile where
  title : Option String := none
  fds_version : Option String := none
  revision : Option String := none
  n_meshes : Option Nat := none
  input_filename : Option String := none
  endf_filename : Option String := none
  surf_def : Option String := none
  view_times : Option ViewTimes := none
  albedo : Option F64 := none
  i_blank : Option Nat := none
  gvec : Option Xyz := none
  chid : Option String := none
  csvfs : List CSVEntry := []
  offsets : List Xyz := []
  grids : List GridBlock := []
  pdims : List PdimBlock := []
  obsts : List (List SmvObst) := []
  vents : List (List SmvVent) := []
  surfs : List SmvSurface := []
  events : List SmvEvent := []
  prt5s : List Prt5 := []
  bndfs : List Bndf := []
  devcs : List SmvDevice := []
  device_acts : List SmvDeviceAct := []
  xyzs : List String := []
  slcfs : List Slcf := []
  inpfs : List String := []
  trnx : List (List TrnEntry) := []
  trny : List (List TrnEntry) := []
  trnz : List (List TrnEntry) := []
  solid_ht3d : Option Int := none
  texture_origin : Option Xyz := none
  smoke_3d : List Smoke3d := []
deriving DecidableEq

/-- `PendingSmvFile::new` (all fields default). -/
def PendingSmvFile.new : PendingSmvFile := {}

/-- `FromStr for ObstFirstHalf`: six coordinates, a blockage id, six surface
indices, then an optional 3-component texture origin. -/
def ObstFirstHalf.fromStr (s : String) : Option ObstFirstHalf :=
  match splitWhitespace s with
  | x1 :: x2 :: y1 :: y2 :: z1 :: z2 :: bid :: s1 :: s2 :: s3 :: s4 :: s5 :: s6 :: rest =>
    match parseInt bid, parseNat s1, parseNat s2, parseNat s3,
        parseNat s4, parseNat s5, parseNat s6 with
    | some blockage_id, some a1, some a2, some a3, some a4, some a5, some a6 =>
      let xb : Xb := ⟨parseF64 x1, parseF64 x2, parseF64 y1, parseF64 y2,
        parseF64 z1, parseF64 z2⟩
      let surfaces := Surfaces.new a1 a2 a3 a4 a5 a6
      match rest with
      | [] => some ⟨xb, blockage_id, surfaces, none⟩
      | tx :: ty :: tz :: _ =>
        some ⟨xb, blockage_id, surfaces, some (Xyz.new (parseF64 tx) (parseF64 ty) (parseF64 tz))⟩
      | _ => none
    | _, _, _, _, _, _, _ => none
  | _ => none

/-- `FromStr for ObstSecondHalf`: six grid coordinates, a colour index and a
block type. -/
def ObstSecondHalf.fromStr (s : String) : Option ObstSecondHalf :=
  match splitWhitespace s with
  | i1 :: i2 :: j1 :: j2 :: k1 :: k2 :: ci :: bt :: _ =>
    match parseInt i1, parseInt i2, parseInt j1, parseInt j2, parseInt k1,
        parseInt k2, parseInt ci, parseInt bt with
    | some b1, some b2, some b3, some b4, some b5, some b6, some color_index, some block_type =>
      some ⟨GridRegion.new b1 b2 b3 b4 b5 b6, color_index, block_type⟩
    | _, _, _, _, _, _, _, _ => none
  | _ => none

/-- `FromStr for VentFirstHalf`. -/
def VentFirstHalf.fromStr (s : String) : Option VentFirstHalf :=
  match splitWhitespace s with
  | x1 :: x2 :: y1 :: y2 :: z1 :: z2 :: vid :: sn :: rest =>
    match parseNat vid, parseNat sn with
    | some vent_id, some s_num =>
      let xb := Xb.new (parseF64 x1) (parseF64 x2) (parseF64 y1) (parseF64 y2)
        (parseF64 z1) (parseF64 z2)
      match rest with
      | [] => some ⟨xb, vent_id, s_num, none⟩
      | tx :: ty :: tz :: _ =>
        some ⟨xb, vent_id, s_num, some (Xyz.new (parseF64 tx) (parseF64 ty) (parseF64 tz))⟩
      | _ => none
    | _, _ => none
  | _ => none

/-- `FromStr for VentSecondHalf`. -/
def VentSecondHalf.fromStr (s : String) : Option VentSecondHalf :=
  match splitWhitespace s with
  | i1 :: i2 :: j1 :: j2 :: k1 :: k2 :: vi :: vt :: rest =>
    match parseInt i1, parseInt i2, parseInt j1, parseInt j2, parseInt k1,
        parseInt k2, parseInt vi, parseInt vt with
    | some b1, some b2, some b3, some b4, some b5, some b6, some vent_index, some vent_type =>
      let ijk : GridRegion := ⟨b1, b2, b3, b4, b5, b6⟩
      match rest with
      | [] => some (VentSecondHalf.new ijk vent_index vent_type none)
      | r :: g :: b :: a :: _ =>
        some (VentSecondHalf.new ijk vent_index vent_type
          (some (Rgbaf.new (parseF64 r) (parseF64 g) (parseF64 b) (parseF64 a))))
      | _ => none
    | _, _, _, _, _, _, _, _ => none
  | _ => none

/-- `FromStr for TrnEntry`. -/
def TrnEntry.fromStr (s : String) : Option TrnEntry :=
  match splitWhitespace s with
  | t0 :: t1 :: _ => (parseNat t0).map fun i => ⟨i, parseF64 t1⟩
  | _ => none

set_option maxHeartbeats 1600000 in
/-- `ParserState`: the ~50-variant current-mode union. The source's `Prop`
variant is renamed `PropBlock` (`Prop` is reserved in Lean). -/
inductive ParserState where
  | None
  | TitleBlock
  | FdsVersion1
  | FdsVersion2
  | Revision
  | NMeshes
  | ViewTimes
  | Albedo
  | IBlank
  | GVec
  | Material
  | ClassOfParticles
  | Outline
  | TOffset
  | HrrPuvCut
  | Ramp
  | PropBlock
  | Device1
  | Device2 (name quantity : String)
  | Offset
  | Grid (name : String)
  | Pdim
  | Vent1
  | Vent2 (n_vents : Nat) (first_vents : List VentFirstHalf)
      (n_dummy_vents : Nat) (first_dummy_vents : List VentFirstHalf)
  | Vent3 (n_vents : Nat) (first_vents : List VentFirstHalf)
      (second_vents : List VentSecondHalf) (n_dummy_vents : Nat)
      (first_dummy_vents : List VentFirstHalf)
      (second_dummy_vents : List VentSecondHalf)
  | CVent
  | Smoke3d1 (t : Smoke3dType) (mesh : Nat)
  | Smoke3d2 (t : Smoke3dType) (mesh : Nat) (file_name : String)
  | Smoke3d3 (t : Smoke3dType) (mesh : Nat) (file_name long_name : String)
  | Smoke3d4 (t : Smoke3dType) (mesh : Nat) (file_name long_name short_name : String)
  | Bndf1 (a b : Nat)
  | Bndf2 (a b : Nat) (filename : String)
  | Bndf3 (a b : Nat) (filename long_name : String)
  | Bndf4 (a b : Nat) (filename long_name short_name : String)
  | Bndf5 (a b : Nat) (filename long_name short_name units : String)
  | Slcf1 (cell_centred : Bool) (vs : String)
  | Slcf2 (cell_centred : Bool) (vs filename : String)
  | Slcf3 (cell_centred : Bool) (vs filename long_name : String)
  | Slcf4 (cell_centred : Bool) (vs filename long_name short_name : String)
  | Slcf5 (cell_centred : Bool) (vs filename long_name short_name units : String)
  | Prt51 (n : Nat)
  | Prt52 (n : Nat) (filename : String)
  | Prt53 (n : Nat) (filename : String) (a : Int)
  | DeviceAct (name : String)
  | ChidBlock
  | SolidHt3d
  | CsvfBlock1
  | CsvfBlock2 (t : String)
  | InpfBlock
  | Endf
  | SurfDef
  | ObstBlock1
  | ObstBlock2 (n : Nat) (first_obsts : List ObstFirstHalf)
  | ObstBlock3 (n : Nat) (first_obsts : List ObstFirstHalf)
      (second_obsts : List ObstSecondHalf)
  | Surface1
  | Surface2 (name : String)
  | Surface3 (name : String) (ignition_temperature emissivity : F64)
  | Surface4 (name : String) (ignition_temperature emissivity : F64)
      (surface_type : Int) (t_width t_height : F64) (color : Rgbaf)
  | Trn1 (axis : Axis)
  | Trn2 (axis : Axis) (skip_n : Nat) (entries : List TrnEntry)
  | Xyz
  | Pl3d
  | CloseVent (n : Nat)
  | OpenVent (n : Nat)
  | HideObst (n : Nat)
  | ShowObst (n : Nat)

/-- Failure outcomes of the manifest parser: `err` for errors propagated with
`?` (message text matters only for `"mesh entries unbalanced"`), `panicked`
for a Rust `panic!`/failed `unwrap()`. -/
inductive SmvFail where
  | err (msg : String)
  | panicked
deriving DecidableEq

/-- Result monad of the manifest parser. -/
abbrev SmvM (α : Type) := Except SmvFail α

/-- `Option::unwrap`: a missing value panics. -/
def unwrapM {α β : Type} (o : Option α) (f : α → SmvM β) : SmvM β :=
  match o with
  | some a => f a
  | none => .error .panicked

/-- `?` on a fallible parse: a missing value propagates as an error. -/
def tryE {α β : Type} (o : Option α) (f : α → SmvM β) : SmvM β :=
  match o with
  | some a => f a
  | none => .error (.err "parse")

/-- The special end-of-block handling applied when a non-whitespace line is
seen while a mode is active (`// Apply special end conditions` in
`parse_smv_file`): `Trn2` finalizes its table, zero-count `ObstBlock2` /
`Vent2` finalize empty per-mesh lists, `Surface3` and the header-only
`FdsVersion1`/`FdsVersion2`/`Revision` modes are left untouched, and every
other mode resets to `None`. -/
def endStep (st : ParserState) (p : PendingSmvFile) : ParserState × PendingSmvFile :=
  match st with
  | .Trn2 axis _skip_n entries =>
    let p :=
      match axis with
      | .X => { p with trnx := p.trnx ++ [entries] }
      | .Y => { p with trny := p.trny ++ [entries] }
      | .Z => { p with trnz := p.trnz ++ [entries] }
    (.None, p)
  | .ObstBlock2 0 _ => (.None, { p with obsts := p.obsts ++ [[]] })
  | .Vent2 0 _ 0 _ => (.None, { p with vents := p.vents ++ [[]] })
  | .Surface3 name ignition_temperature emissivity =>
    (.Surface3 name ignition_temperature emissivity, p)
  | .FdsVersion1 => (.FdsVersion1, p)
  | .FdsVersion2 => (.FdsVersion2, p)
  | .Revision => (.Revision, p)
  | _ => (.None, p)

/-- Keyword dispatch of the `ParserState::None` handler: resolve a block
header to its starting mode, consuming inline parameters from the remainder
of the line. An unrecognized keyword is non-fatal (diagnostic only). -/
def dispatchHeader (name remainder : String) : SmvM ParserState :=
  match name with
  | "TITLE" => .ok .TitleBlock
  | "FDSVERSION" => .ok .FdsVersion1
  | "REVISION" => .ok .Revision
  | "CHID" => .ok .ChidBlock
  | "NMESHES" => .ok .NMeshes
  | "VIEWTIMES" => .ok .ViewTimes
  | "ALBEDO" => .ok .Albedo
  | "IBLANK" => .ok .IBlank
  | "GVEC" => .ok .GVec
  | "MATERIAL" => .ok .Material
  | "CLASS_OF_PARTICLES" => .ok .ClassOfParticles
  | "OUTLINE" => .ok .Outline
  | "TOFFSET" => .ok .TOffset
  | "HRRPUVCUT" => .ok .HrrPuvCut
  | "RAMP" => .ok .Ramp
  | "ENDF" => .ok .Endf
  | "SURFDEF" => .ok .SurfDef
  | "PROP" => .ok .PropBlock
  | "DEVICE" => .ok .Device1
  | "OFFSET" => .ok .Offset
  | "GRID" =>
    -- `remainder.strip_prefix(' ').unwrap();` -- result discarded, panics
    -- when the remainder does not start with a space; the stored name keeps
    -- the leading space.
    unwrapM (stripLeadingSpace remainder) fun _ => .ok (.Grid remainder)
  | "PDIM" => .ok .Pdim
  | "VENT" => .ok .Vent1
  | "CVENT" => .ok .CVent
  | "SMOKF3D" => unwrapM (parseNat (trimStr remainder)) fun n => .ok (.Smoke3d1 .F n)
  | "SMOKG3D" => unwrapM (parseNat (trimStr remainder)) fun n => .ok (.Smoke3d1 .G n)
  | "SLCC" => .ok (.Slcf1 true remainder)
  | "SLCF" => .ok (.Slcf1 false remainder)
  | "BNDF" =>
    match splitWhitespace remainder with
    | t0 :: t1 :: _ =>
      unwrapM (parseNat t0) fun a =>
      unwrapM (parseNat t1) fun b =>
      .ok (.Bndf1 a b)
    | _ => .error .panicked
  | "PRT5" => unwrapM (parseNat (trimStr remainder)) fun n => .ok (.Prt51 n)
  | "DEVICE_ACT" => .ok (.DeviceAct remainder)
  | "CSVF" => .ok .CsvfBlock1
  | "INPF" => .ok .InpfBlock
  | "OBST" => .ok .ObstBlock1
  | "TRNX" => .ok (.Trn1 .X)
  | "TRNY" => .ok (.Trn1 .Y)
  | "TRNZ" => .ok (.Trn1 .Z)
  | "SURFACE" => .ok .Surface1
  | "SOLID_HT3D" => .ok .SolidHt3d
  | "PL3D" => .ok .Pl3d
  | "XYZ" => .ok .Xyz
  | "CLOSE_VENT" => unwrapM (parseNat (trimStr remainder)) fun n => .ok (.CloseVent n)
  | "OPEN_VENT" => unwrapM (parseNat (trimStr remainder)) fun n => .ok (.OpenVent n)
  | "HIDE_OBST" => unwrapM (parseNat (trimStr remainder)) fun n => .ok (.HideObst n)
  | "SHOW_OBST" => unwrapM (parseNat (trimStr remainder)) fun n => .ok (.ShowObst n)
  | _ => .ok .None

/-- The per-mode body-line handlers (the main `match state` of
`parse_smv_file`). -/
def handleLine (st : ParserState) (p : PendingSmvFile) (line : String) :
    SmvM (ParserState × PendingSmvFile) :=
  match st with
  | .None =>
    if startsWs line then .ok (.None, p)
    else
      let nr := splitAtFirstWs line
      match dispatchHeader nr.1 nr.2 with
      | .ok st' => .ok (st', p)
      | .error e => .error e
  | .TitleBlock =>
    unwrapM (stripLeadingSpace line) fun l =>
    .ok (.None, { p with title := some l })
  | .FdsVersion1 => .ok (.FdsVersion2, { p with fds_version := some line })
  | .FdsVersion2 => .ok (.None, { p with fds_version := some line })
  | .Revision => .ok (.None, { p with revision := some line })
  | .NMeshes =>
    unwrapM (stripLeadingSpace line) fun l =>
    tryE (parseNat (trimStr l)) fun n =>
    .ok (.None, { p with n_meshes := some n })
  | .ViewTimes =>
    unwrapM (stripLeadingSpace line) fun l =>
    match splitWhitespace (trimStr l) with
    | t0 :: t1 :: t2 :: _ =>
      unwrapM (parseNat t2) fun tour_ntimes =>
      .ok (.None, { p with view_times := some ⟨parseF64 t0, parseF64 t1, tour_ntimes⟩ })
    | _ => .error .panicked
  | .Albedo =>
    unwrapM (stripLeadingSpace line) fun l =>
    .ok (.None, { p with albedo := some (parseF64 (trimStr l)) })
  | .IBlank =>
    unwrapM (stripLeadingSpace line) fun l =>
    tryE (parseNat (trimStr l)) fun n =>
    .ok (.None, { p with i_blank := some n })
  | .GVec =>
    unwrapM (stripLeadingSpace line) fun l =>
    match splitWhitespace l with
    | x :: y :: z :: _ =>
      .ok (.None, { p with gvec := some ⟨parseF64 x, parseF64 y, parseF64 z⟩ })
    | _ => .error .panicked
  | .Material => .ok (.None, p)
  | .ClassOfParticles => .ok (.None, p)
  | .Outline => .ok (.None, p)
  | .Pl3d => .ok (.None, p)
  | .CloseVent n =>
    match splitWhitespace (trimStr line) with
    | t0 :: t1 :: _ =>
      unwrapM (parseNat t0) fun i =>
      .ok (.None, { p with events := p.events ++ [SmvEvent.CloseVent n i (parseF64 t1)] })
    | _ => .error .panicked
  | .OpenVent n =>
    match splitWhitespace (trimStr line) with
    | t0 :: t1 :: _ =>
      unwrapM (parseNat t0) fun i =>
      .ok (.None, { p with events := p.events ++ [SmvEvent.OpenVent n i (parseF64 t1)] })
    | _ => .error .panicked
  | .HideObst n =>
    match splitWhitespace (trimStr line) with
    | t0 :: t1 :: _ =>
      unwrapM (parseNat t0) fun i =>
      .ok (.None, { p with events := p.events ++ [SmvEvent.HideObst n i (parseF64 t1)] })
    | _ => .error .panicked
  | .ShowObst n =>
    match splitWhitespace (trimStr line) with
    | t0 :: t1 :: _ =>
      unwrapM (parseNat t0) fun i =>
      .ok (.None, { p with events := p.events ++ [SmvEvent.ShowObst n i (parseF64 t1)] })
    | _ => .error .panicked
  | .TOffset =>
    match splitWhitespace (trimStr line) with
    | x :: y :: z :: _ =>
      .ok (.None, { p with texture_origin := some ⟨parseF64 x, parseF64 y, parseF64 z⟩ })
    | _ => .error .panicked
  | .HrrPuvCut => .ok (.None, p)
  | .Ramp => .ok (.None, p)
  | .PropBlock => .ok (.None, p)
  | .Device1 =>
    match splitChar '%' (trimStr line) with
    | nm :: qty :: _ => .ok (.Device2 nm qty, p)
    | _ => .error .panicked
  | .Device2 name quantity =>
    match splitWhitespace line with
    | x1 :: y1 :: z1 :: x2 :: y2 :: z2 :: s0 :: np :: separator :: rest =>
      unwrapM (parseI32 s0) fun state0 =>
      unwrapM (parseI32 np) fun nparams =>
      if separator = "#" then
        match rest with
        | a1 :: b1 :: c1 :: a2 :: b2 :: c2 :: _extra :: bt :: _ =>
          .ok (.None, { p with devcs := p.devcs ++
            [{ name := name, quantity := quantity
               p1 := Xyz.new (parseF64 x1) (parseF64 y1) (parseF64 z1)
               p2 := Xyz.new (parseF64 x2) (parseF64 y2) (parseF64 z2)
               ps := some (Xyz.new (parseF64 a1) (parseF64 b1) (parseF64 c1),
                 Xyz.new (parseF64 a2) (parseF64 b2) (parseF64 c2))
               beam_type := bt, state0 := state0, nparams := nparams }] })
        | _ => .error .panicked
      else
        match rest with
        | bt :: _ =>
          .ok (.None, { p with devcs := p.devcs ++
            [{ name := name, quantity := quantity
               p1 := Xyz.new (parseF64 x1) (parseF64 y1) (parseF64 z1)
               p2 := Xyz.new (parseF64 x2) (parseF64 y2) (parseF64 z2)
               ps := none
               beam_type := bt, state0 := state0, nparams := nparams }] })
        | _ => .error .panicked
    | _ => .error .panicked
  | .Offset =>
    match splitWhitespace (trimStr line) with
    | x :: y :: z :: _ =>
      .ok (.None, { p with offsets := p.offsets ++ [⟨parseF64 x, parseF64 y, parseF64 z⟩] })
    | _ => .error .panicked
  | .Pdim =>
    match splitWhitespace (trimStr line) with
    | t0 :: t1 :: t2 :: t3 :: t4 :: t5 :: t6 :: t7 :: t8 :: _ =>
      .ok (.None, { p with pdims := p.pdims ++
        [{ xbar0 := parseF64 t0, xbar := parseF64 t1, ybar0 := parseF64 t2
           ybar := parseF64 t3, zbar0 := parseF64 t4, zbar := parseF64 t5
           color := ⟨parseF64 t6, parseF64 t7, parseF64 t8⟩ }] })
    | _ => .error .panicked
  | .Vent1 =>
    match splitWhitespace line with
    | t0 :: t1 :: _ =>
      unwrapM (parseNat t0) fun total_vents =>
      unwrapM (parseNat t1) fun n_dummy_vents =>
      -- `total_vents - n_dummy_vents` is a `usize` subtraction: modelled as
      -- truncated Nat subtraction (a debug build would panic on underflow).
      .ok (.Vent2 (total_vents - n_dummy_vents) [] n_dummy_vents [], p)
    | _ => .error .panicked
  | .Vent2 n_vents first_vents n_dummy_vents first_dummy_vents =>
    unwrapM (VentFirstHalf.fromStr (trimStr line)) fun f =>
    let fv := if first_vents.length < n_vents then first_vents ++ [f] else first_vents
    let fd :=
      if first_vents.length < n_vents then first_dummy_vents
      else if first_dummy_vents.length < n_dummy_vents then first_dummy_vents ++ [f]
      else first_dummy_vents
    if fv.length < n_vents ∨ fd.length < n_dummy_vents then
      .ok (.Vent2 n_vents fv n_dummy_vents fd, p)
    else
      .ok (.Vent3 n_vents fv [] n_dummy_vents fd [], p)
  | .Vent3 n_vents first_vents second_vents n_dummy_vents first_dummy_vents
      second_dummy_vents =>
    unwrapM (VentSecondHalf.fromStr (trimStr line)) fun f =>
    let sv := if second_vents.length < n_vents then second_vents ++ [f] else second_vents
    let sd :=
      if second_vents.length < n_vents then second_dummy_vents
      else if second_dummy_vents.length < n_dummy_vents then second_dummy_vents ++ [f]
      else second_dummy_vents
    if sv.length < n_vents ∨ sd.length < n_dummy_vents then
      .ok (.Vent3 n_vents first_vents sv n_dummy_vents first_dummy_vents sd, p)
    else
      -- normal and dummy vents are merged into one combined list per mesh
      let firsts := first_vents ++ first_dummy_vents
      let seconds := sv ++ sd
      .ok (.None, { p with vents := p.vents ++ [List.zipWith SmvVent.new firsts seconds] })
  | .CVent => .ok (.None, p)
  | .Grid name =>
    match splitWhitespace (trimStr line) with
    | t0 :: t1 :: t2 :: t3 :: _ =>
      unwrapM (parseNat t0) fun i_bar =>
      unwrapM (parseNat t1) fun j_bar =>
      unwrapM (parseNat t2) fun k_bar =>
      unwrapM (parseNat t3) fun mesh_type =>
      .ok (.None, { p with grids := p.grids ++
        [{ name := name, i_bar := i_bar, j_bar := j_bar, k_bar := k_bar
           mesh_type := mesh_type }] })
    | _ => .error .panicked
  | .Smoke3d1 smoke_type mesh =>
    unwrapM (stripLeadingSpace line) fun l =>
    .ok (.Smoke3d2 smoke_type mesh (trimStr l), p)
  | .Smoke3d2 smoke_type mesh file_name =>
    unwrapM (stripLeadingSpace line) fun l =>
    .ok (.Smoke3d3 smoke_type mesh file_name (trimStr l), p)
  | .Smoke3d3 smoke_type mesh file_name long_name =>
    unwrapM (stripLeadingSpace line) fun l =>
    .ok (.Smoke3d4 smoke_type mesh file_name long_name (trimStr l), p)
  | .Smoke3d4 smoke_type mesh file_name long_name short_name =>
    unwrapM (stripLeadingSpace line) fun l =>
    .ok (.None, { p with smoke_3d := p.smoke_3d ++
      [{ smoke_type := smoke_type, mesh := mesh, file_name := file_name
         long_name := long_name, short_name := short_name, units := (trimStr l) }] })
  | .Slcf1 cell_centred vs =>
    unwrapM (stripLeadingSpace line) fun l =>
    .ok (.Slcf2 cell_centred vs (trimStr l), p)
  | .Slcf2 cell_centred vs filename =>
    unwrapM (stripLeadingSpace line) fun l =>
    .ok (.Slcf3 cell_centred vs filename (trimStr l), p)
  | .Slcf3 cell_centred vs filename long_name =>
    unwrapM (stripLeadingSpace line) fun l =>
    .ok (.Slcf4 cell_centred vs filename long_name (trimStr l), p)
  | .Slcf4 cell_centred vs filename long_name short_name =>
    unwrapM (stripLeadingSpace line) fun l =>
    .ok (.Slcf5 cell_centred vs filename long_name short_name (trimStr l), p)
  | .Slcf5 cell_centred vs filename long_name short_name units =>
    -- the current line is consumed without being read
    .ok (.None, { p with slcfs := p.slcfs ++
      [{ cell_centred := cell_centred, vs := vs, filename := filename
         long_name := long_name, short_name := short_name, units := units }] })
  | .Bndf1 a b =>
    unwrapM (stripLeadingSpace line) fun l =>
    .ok (.Bndf2 a b (trimStr l), p)
  | .Bndf2 a b filename =>
    unwrapM (stripLeadingSpace line) fun l =>
    .ok (.Bndf3 a b filename (trimStr l), p)
  | .Bndf3 a b filename long_name =>
    unwrapM (stripLeadingSpace line) fun l =>
    .ok (.Bndf4 a b filename long_name (trimStr l), p)
  | .Bndf4 a b filename long_name short_name =>
    unwrapM (stripLeadingSpace line) fun l =>
    .ok (.Bndf5 a b filename long_name short_name (trimStr l), p)
  | .Bndf5 a b filename long_name short_name units =>
    .ok (.None, { p with bndfs := p.bndfs ++
      [{ a := a, b := b, filename := filename, long_name := long_name
         short_name := short_name, units := units }] })
  | .Prt51 n =>
    unwrapM (stripLeadingSpace line) fun l =>
    .ok (.Prt52 n (trimStr l), p)
  | .Prt52 n filename =>
    unwrapM (stripLeadingSpace line) fun l =>
    unwrapM (parseInt (trimStr l)) fun a =>
    .ok (.Prt53 n filename a, p)
  | .Prt53 n filename a =>
    unwrapM (stripLeadingSpace line) fun l =>
    unwrapM (parseInt (trimStr l)) fun b =>
    .ok (.None, { p with prt5s := p.prt5s ++
      [{ n := n, filename := filename, a := a, b := b }] })
  | .DeviceAct name =>
    match splitWhitespace (trimStr line) with
    | t0 :: t1 :: t2 :: _ =>
      unwrapM (parseNat t0) fun i =>
      unwrapM (parseNat t2) fun n =>
      .ok (.None, { p with device_acts := p.device_acts ++
        [{ name := name, n := n, i := i, v := parseF64 t1 }] })
    | _ => .error .panicked
  | .Endf =>
    unwrapM (stripLeadingSpace line) fun l =>
    .ok (.None, { p with endf_filename := some (trimStr l) })
  | .SurfDef =>
    unwrapM (stripLeadingSpace line) fun l =>
    .ok (.None, { p with surf_def := some (trimStr l) })
  | .Xyz =>
    unwrapM (stripLeadingSpace line) fun l =>
    .ok (.None, { p with xyzs := p.xyzs ++ [l] })
  | .ChidBlock =>
    unwrapM (stripLeadingSpace line) fun l =>
    .ok (.None, { p with chid := some l })
  | .SolidHt3d =>
    unwrapM (stripLeadingSpace line) fun l =>
    tryE (parseInt (trimStr l)) fun n =>
    .ok (.None, { p with solid_ht3d := some n })
  | .CsvfBlock1 => .ok (.CsvfBlock2 (trimStr line), p)
  | .CsvfBlock2 t =>
    .ok (.None, { p with csvfs := p.csvfs ++ [{ type_ := t, filename := (trimStr line) }] })
  | .InpfBlock => .ok (.None, { p with input_filename := some (trimStr line) })
  | .ObstBlock1 =>
    unwrapM (parseNat (trimStr line)) fun n =>
    .ok (.ObstBlock2 n [], p)
  | .ObstBlock2 n first_obsts =>
    unwrapM (ObstFirstHalf.fromStr (trimStr line)) fun f =>
    let first_obsts := first_obsts ++ [f]
    if first_obsts.length ≥ n then .ok (.ObstBlock3 n first_obsts [], p)
    else .ok (.ObstBlock2 n first_obsts, p)
  | .ObstBlock3 n first_obsts second_obsts =>
    unwrapM (ObstSecondHalf.fromStr (trimStr line)) fun f =>
    let second_obsts := second_obsts ++ [f]
    if second_obsts.length ≥ n then
      .ok (.None, { p with obsts := p.obsts ++
        [List.zipWith SmvObst.new first_obsts second_obsts] })
    else .ok (.ObstBlock3 n first_obsts second_obsts, p)
  | .Surface1 =>
    unwrapM (stripLeadingSpace line) fun l =>
    .ok (.Surface2 (trimStr l), p)
  | .Surface2 name =>
    match splitWhitespace (trimStr line) with
    | t0 :: t1 :: _ =>
      .ok (.Surface3 name (parseF64 t0) (parseF64 t1), p)
    | _ => .error .panicked
  | .Surface3 name ignition_temperature emissivity =>
    match splitWhitespace (trimStr line) with
    | t0 :: t1 :: t2 :: t3 :: t4 :: t5 :: t6 :: _ =>
      unwrapM (parseInt t0) fun s_type =>
      .ok (.Surface4 name ignition_temperature emissivity s_type (parseF64 t1)
        (parseF64 t2) (Rgbaf.new (parseF64 t3) (parseF64 t4) (parseF64 t5) (parseF64 t6)), p)
    | _ => .error .panicked
  | .Surface4 name ignition_temperature emissivity surface_type t_width t_height color =>
    unwrapM (stripLeadingSpace line) fun l =>
    .ok (.None, { p with surfs := p.surfs ++
      [{ name := name, ignition_temperature := ignition_temperature
         emissivity := emissivity, surface_type := surface_type
         t_width := t_width, t_height := t_height, color := color
         texture_file := (trimStr l) }] })
  | .Trn1 axis =>
    unwrapM (parseNat (trimStr line)) fun skip_n =>
    .ok (.Trn2 axis skip_n [], p)
  | .Trn2 axis skip_n entries =>
    if skip_n > 0 then .ok (.Trn2 axis (skip_n - 1) entries, p)
    else
      unwrapM (TrnEntry.fromStr (trimStr line)) fun f =>
      .ok (.Trn2 axis skip_n (entries ++ [f]), p)

/-- One full iteration of the line loop of `parse_smv_file`: skip blank
lines, apply the end-of-block conditions when the line starts with a
non-whitespace character, then run the active mode's handler. -/
def processLine (st : ParserState) (p : PendingSmvFile) (line : String) :
    SmvM (ParserState × PendingSmvFile) :=
  if line = "" then .ok (st, p)
  else
    let sp := if startsNonWs line then endStep st p else (st, p)
    handleLine sp.1 sp.2 line

/-- Fold `processLine` over a list of lines. -/
def runLines : List String → ParserState → PendingSmvFile →
    SmvM (ParserState × PendingSmvFile)
  | [], st, p => .ok (st, p)
  | l :: ls, st, p =>
    match processLine st p l with
    | .ok (st', p') => runLines ls st' p'
    | .error e => .error e

/-- The zip chain of `TryFrom<PendingSmvFile>`: one `SmvMesh` per grid block,
pairing the i-th entry of every per-mesh parallel list. -/
def mkMeshes (p : PendingSmvFile) : List SmvMesh :=
  (((((((p.grids.zip p.obsts).zip p.vents).zip p.trnx).zip p.trny).zip
      p.trnz).zip p.pdims).zip p.offsets).map
    fun x => SmvMesh.new x.1.1.1.1.1.1.1 x.1.1.1.1.1.1.2 x.1.1.1.1.1.2
      x.1.1.1.1.2 x.1.1.1.2 x.1.1.2 x.1.2 x.2

/-- `TryFrom<PendingSmvFile> for SmvFile`: check that all eight per-mesh
parallel lists have the same length as the grid list (otherwise fail with
"mesh entries unbalanced"), then zip the meshes and build the manifest.
The `unwrap()`s on `title`, `chid` and `input_filename` panic when the
corresponding block was missing. -/
def tryFromPending (p : PendingSmvFile) : SmvM SmvFile :=
  let n_grids := p.grids.length
  let equal_n := [n_grids, p.obsts.length, p.vents.length, p.trnx.length,
    p.trny.length, p.trnz.length, p.pdims.length, p.offsets.length].all
    (fun item => item = n_grids)
  if equal_n then
    let meshes := mkMeshes p
    match p.title, p.chid, p.input_filename with
    | some title, some chid, some input_filename =>
      .ok { title := title, chid := chid, csvfs := p.csvfs, surfs := p.surfs
            meshes := meshes, xyzs := p.xyzs, solid_ht3d := p.solid_ht3d
            input_filename := input_filename, endf_filename := p.endf_filename
            fds_version := p.fds_version, surf_def := p.surf_def
            view_times := p.view_times, albedo := p.albedo, i_blank := p.i_blank
            gvec := p.gvec, events := p.events, device_acts := p.device_acts
            slcfs := p.slcfs, prt5s := p.prt5s, bndfs := p.bndfs
            devcs := p.devcs, texture_origin := p.texture_origin }
    | _, _, _ => .error .panicked
  else .error (.err "mesh entries unbalanced")

/-- `parse_smv_file`: run the state machine over all lines (the input is
modelled as the list of lines), then finalize the pending aggregate. -/
def parseSmvFile (lines : List String) : SmvM SmvFile :=
  match runLines lines ParserState.None PendingSmvFile.new with
  | .ok (_, p) => tryFromPending p
  | .error e => .error e


theorem readExact_of_le {rd : Rd} {n : Nat} (h : rd.pos + n ≤ rd.data.length) :
    rd.readExact n =
      (.ok ((rd.data.drop rd.pos).take n), { rd with pos := rd.pos + n }) := by
  simp [Rd.readExact, h]

theorem readExact_eq_ok {rd : Rd} {n : Nat} {bs : List Nat} {rd' : Rd}
    (h : rd.readExact n = (.ok bs, rd')) :
    rd.pos + n ≤ rd.data.length ∧ bs = (rd.data.drop rd.pos).take n ∧
      rd' = { rd with pos := rd.pos + n } := by
  by_cases hle : rd.pos + n ≤ rd.data.length
  · rw [readExact_of_le hle] at h
    obtain ⟨h1, h2⟩ := Prod.mk.injEq .. ▸ h
    exact ⟨hle, (Except.ok.injEq .. ▸ h1).symm, h2.symm⟩
  · simp [Rd.readExact, hle] at h

theorem readU32_of_le {rd : Rd} (h : rd.pos + 4 ≤ rd.data.length) :
    rd.readU32 = (.ok (u32At rd.data rd.pos), { rd with pos := rd.pos + 4 }) := by
  rw [Rd.readU32, readExact_of_le h, u32At]

theorem readU32_eq_ok {rd : Rd} {v : Nat} {rd' : Rd}
    (h : rd.readU32 = (.ok v, rd')) :
    rd.pos + 4 ≤ rd.data.length ∧ v = u32At rd.data rd.pos ∧
      rd' = { rd with pos := rd.pos + 4 } := by
  by_cases hle : rd.pos + 4 ≤ rd.data.length
  · rw [readU32_of_le hle] at h
    obtain ⟨h1, h2⟩ := Prod.mk.injEq .. ▸ h
    exact ⟨hle, (Except.ok.injEq .. ▸ h1).symm, h2.symm⟩
  · simp [Rd.readU32, Rd.readExact, hle] at h

theorem readU32_at_end {rd : Rd} (h : rd.data.length < rd.pos + 4) :
    rd.readU32 = (.error .ioError, { rd with pos := rd.data.length }) := by
  simp [Rd.readU32, Rd.readExact, Nat.not_le.mpr h]

theorem readF32s_of_le :
    ∀ (n : Nat) (rd : Rd), rd.pos + 4 * n ≤ rd.data.length →
      readF32s n rd =
        (.ok (wordsAt rd.data rd.pos n), { rd with pos := rd.pos + 4 * n }) := by
  intro n
  induction n with
  | zero => intro rd _; simp [readF32s, wordsAt]
  | succ m ih =>
    intro rd h
    have h4 : rd.pos + 4 ≤ rd.data.length := by omega
    rw [readF32s, Rd.readF32, readU32_of_le h4]
    dsimp only
    have hrec : ({ rd with pos := rd.pos + 4 } : Rd).pos + 4 * m ≤
        ({ rd with pos := rd.pos + 4 } : Rd).data.length := by simp; omega
    rw [ih _ hrec]
    dsimp only
    rw [wordsAt]
    have harith : rd.pos + 4 + 4 * m = rd.pos + 4 * (m + 1) := by omega
    rw [harith]

theorem readF32s_eq_ok :
    ∀ (n : Nat) (rd : Rd) (vs : List Nat) (rd' : Rd),
      readF32s n rd = (.ok vs, rd') →
      rd'.data = rd.data ∧ rd'.pos = rd.pos + 4 * n := by
  intro n
  induction n with
  | zero =>
    intro rd vs rd' h
    simp [readF32s] at h
    rw [← h.2]
    exact ⟨rfl, by omega⟩
  | succ m ih =>
    intro rd vs rd' h
    rw [readF32s] at h
    rcases hA : rd.readF32 with ⟨ra, rd1⟩
    rw [hA] at h
    cases ra with
    | error e => simp at h
    | ok v =>
      dsimp only at h
      rcases hB : readF32s m rd1 with ⟨rb, rd2⟩
      rw [hB] at h
      cases rb with
      | error e => simp at h
      | ok vs2 =>
        dsimp only at h
        obtain ⟨-, hu2, hu3⟩ := readU32_eq_ok hA
        obtain ⟨hv1, hv2⟩ := ih _ _ _ hB
        obtain ⟨-, h2⟩ := Prod.mk.injEq .. ▸ h
        rw [← h2]
        subst hu3
        simp at hv1 hv2 ⊢
        rw [hv1, hv2]
        exact ⟨rfl, by omega⟩

theorem parse_slice_data_of_le {i j k : Nat} {rd : Rd}
    (h : rd.pos + 8 + 4 * n_values i j k ≤ rd.data.length) :
    parse_slice_data i j k rd =
      (if u32At rd.data (rd.pos + 4 + 4 * n_values i j k) = u32At rd.data rd.pos
        then .ok (wordsAt rd.data (rd.pos + 4) (n_values i j k))
        else .error .recLength,
       { rd with pos := rd.pos + 8 + 4 * n_values i j k }) := by
  rw [parse_slice_data, readU32_of_le (by omega)]
  dsimp only [bindR]
  rw [readF32s_of_le (n_values i j k) _ (by simp; omega)]
  dsimp only [bindR]
  rw [readU32_of_le (by simp; omega)]
  dsimp only [bindR]
  have e1 : rd.pos + 4 + 4 * n_values i j k + 4 = rd.pos + 8 + 4 * n_values i j k := by omega
  by_cases hc : u32At rd.data (rd.pos + 4 + 4 * n_values i j k) = u32At rd.data rd.pos
  · simp [hc, e1]
  · simp [hc, e1]

theorem parse_slice_data_eq_ok {i j k : Nat} {rd : Rd} {vs : List Nat} {rd' : Rd}
    (h : parse_slice_data i j k rd = (.ok vs, rd')) :
    rd'.data = rd.data ∧ rd'.pos = rd.pos + 8 + 4 * n_values i j k ∧
      rd'.pos ≤ rd.data.length ∧
      u32At rd.data (rd.pos + 4 + 4 * n_values i j k) = u32At rd.data rd.pos := by
  rw [parse_slice_data] at h
  rcases hA : rd.readU32 with ⟨ra, rd1⟩
  rw [hA] at h
  cases ra with
  | error e => dsimp only [bindR] at h; simp at h
  | ok rec =>
    dsimp only [bindR] at h
    rcases hB : readF32s (n_values i j k) rd1 with ⟨rb, rd2⟩
    rw [hB] at h
    cases rb with
    | error e => dsimp only [bindR] at h; simp at h
    | ok vals =>
      dsimp only [bindR] at h
      rcases hC : rd2.readU32 with ⟨rc, rd3⟩
      rw [hC] at h
      cases rc with
      | error e => dsimp only [bindR] at h; simp at h
      | ok check =>
        dsimp only [bindR] at h
        obtain ⟨hA1, hA2, hA3⟩ := readU32_eq_ok hA
        obtain ⟨hB1, hB2⟩ := readF32s_eq_ok _ _ _ _ hB
        obtain ⟨hC1, hC2, hC3⟩ := readU32_eq_ok hC
        subst hA3
        simp at hB1 hB2
        by_cases heq : check = rec
        · simp [heq] at h
          obtain ⟨-, h2⟩ := h
          rw [← h2]
          subst hC3
          have hlen := congrArg List.length hB1
          simp [hB1, hB2]
          refine ⟨by omega, by omega, ?_⟩
          have : u32At rd.data (rd.pos + 4 + 4 * n_values i j k) =
              u32At rd2.data rd2.pos := by
            rw [hB1, hB2]
          rw [this, ← hC2, heq, hA2]
        · simp [heq] at h

theorem parse_data_set_of_le {i j k : Nat} {rd : Rd}
    (h : rd.pos + 20 + 4 * n_values i j k ≤ rd.data.length) :
    parse_data_set i j k rd =
      (if u32At rd.data (rd.pos + 8) = u32At rd.data rd.pos then
        (if u32At rd.data (rd.pos + 16 + 4 * n_values i j k) = u32At rd.data (rd.pos + 12)
          then .ok ⟨u32At rd.data (rd.pos + 4), wordsAt rd.data (rd.pos + 16) (n_values i j k)⟩
          else .error .recLength)
        else .error .recLength,
       if u32At rd.data (rd.pos + 8) = u32At rd.data rd.pos
        then { rd with pos := rd.pos + 20 + 4 * n_values i j k }
        else { rd with pos := rd.pos + 12 }) := by
  rw [parse_data_set, readU32_of_le (by omega)]
  dsimp only [bindR]
  rw [Rd.readF32, readU32_of_le (by simp; omega)]
  dsimp only [bindR]
  rw [readU32_of_le (by simp; omega)]
  dsimp only [bindR]
  have e1 : rd.pos + 4 + 4 = rd.pos + 8 := by omega
  have e2 : rd.pos + 4 + 4 + 4 = rd.pos + 12 := by omega
  rw [e1, e2]
  by_cases hc : u32At rd.data (rd.pos + 8) = u32At rd.data rd.pos
  · rw [if_neg (by simpa using hc), if_pos hc, if_pos hc]
    have hsub : ({ rd with pos := rd.pos + 12 } : Rd).pos + 8 +
        4 * n_values i j k ≤ ({ rd with pos := rd.pos + 12 } : Rd).data.length := by
      simp; omega
    rw [parse_slice_data_of_le hsub]
    dsimp only [bindR]
    have e3 : rd.pos + 12 + 4 + 4 * n_values i j k = rd.pos + 16 + 4 * n_values i j k := by
      omega
    have e4 : rd.pos + 12 + 8 + 4 * n_values i j k = rd.pos + 20 + 4 * n_values i j k := by
      omega
    have e5 : rd.pos + 12 + 4 = rd.pos + 16 := by omega
    simp only [e3, e4, e5]
    by_cases hd : u32At rd.data (rd.pos + 16 + 4 * n_values i j k) = u32At rd.data (rd.pos + 12)
    · rw [if_pos hd, if_pos hd]
    · rw [if_neg hd, if_neg hd]
  · rw [if_pos (by simpa using hc), if_neg hc, if_neg hc]

theorem parse_data_set_eq_ok {i j k : Nat} {rd : Rd} {f : Frame} {rd' : Rd}
    (h : parse_data_set i j k rd = (.ok f, rd')) :
    rd'.data = rd.data ∧ rd'.pos = rd.pos + 20 + 4 * n_values i j k ∧
      rd'.pos ≤ rd.data.length ∧
      u32At rd.data (rd.pos + 8) = u32At rd.data rd.pos ∧
      u32At rd.data (rd.pos + 16 + 4 * n_values i j k) = u32At rd.data (rd.pos + 12) := by
  rw [parse_data_set] at h
  rcases hA : rd.readU32 with ⟨ra, rd1⟩
  rw [hA] at h
  cases ra with
  | error e => dsimp only [bindR] at h; simp at h
  | ok rec =>
    dsimp only [bindR] at h
    rcases hB : rd1.readF32 with ⟨rb, rd2⟩
    rw [hB] at h
    cases rb with
    | error e => dsimp only [bindR] at h; simp at h
    | ok time =>
      dsimp only [bindR] at h
      rcases hC : rd2.readU32 with ⟨rc, rd3⟩
      rw [hC] at h
      cases rc with
      | error e => dsimp only [bindR] at h; simp at h
      | ok check =>
        dsimp only [bindR] at h
        by_cases heq : check = rec
        · simp [heq] at h
          rcases hD : parse_slice_data i j k rd3 with ⟨rD, rd4⟩
          rw [hD] at h
          cases rD with
          | error e => dsimp only [bindR] at h; simp at h
          | ok vals =>
            dsimp only [bindR] at h
            simp at h
            obtain ⟨-, h2⟩ := h
            obtain ⟨hA1, hA2, hA3⟩ := readU32_eq_ok hA
            rw [Rd.readF32] at hB
            obtain ⟨hB1, hB2, hB3⟩ := readU32_eq_ok hB
            obtain ⟨hC1, hC2, hC3⟩ := readU32_eq_ok hC
            obtain ⟨hD1, hD2, hD3, hD4⟩ := parse_slice_data_eq_ok hD
            subst hA3
            subst hB3
            subst hC3
            simp at hC1 hC2 hD1 hD2 hD3 hD4
            have hlen := congrArg List.length hD1
            simp at hlen
            rw [← h2]
            have e3 : rd.pos + 4 + 4 + 4 + 4 + 4 * n_values i j k =
                rd.pos + 16 + 4 * n_values i j k := by omega
            have e4 : rd.pos + 4 + 4 + 4 = rd.pos + 12 := by omega
            have e5 : rd.pos + 4 + 4 = rd.pos + 8 := by omega
            refine ⟨hD1, by omega, by omega, ?_, ?_⟩
            · rw [← e5, ← hC2, heq, hA2]
            · rw [← e3, ← e4, ← hD4]
        · simp [heq] at h

theorem parse_record_of_le {rd : Rd}
    (h : rd.pos + 8 + u32At rd.data rd.pos ≤ rd.data.length) :
    parse_record rd =
      (if u32At rd.data (rd.pos + 4 + u32At rd.data rd.pos) = u32At rd.data rd.pos
        then .ok (((rd.data.drop (rd.pos + 4)).take (u32At rd.data rd.pos)))
        else .error .panicked,
       { rd with pos := rd.pos + 8 + u32At rd.data rd.pos }) := by
  rw [parse_record, readU32_of_le (by omega)]
  dsimp only [bindR]
  rw [readExact_of_le (by simp; omega)]
  dsimp only [bindR]
  rw [readU32_of_le (by simp; omega)]
  dsimp only [bindR]
  have e1 : rd.pos + 4 + u32At rd.data rd.pos + 4 = rd.pos + 8 + u32At rd.data rd.pos := by
    omega
  by_cases hc : u32At rd.data (rd.pos + 4 + u32At rd.data rd.pos) = u32At rd.data rd.pos
  · rw [if_neg (by simpa using hc), if_pos hc, e1]
  · rw [if_pos (by simpa using hc), if_neg hc, e1]

theorem parse_record_eq_ok {rd : Rd} {bs : List Nat} {rd' : Rd}
    (h : parse_record rd = (.ok bs, rd')) :
    rd'.data = rd.data ∧ rd'.pos = rd.pos + 8 + u32At rd.data rd.pos ∧
      rd'.pos ≤ rd.data.length ∧
      u32At rd.data (rd.pos + 4 + u32At rd.data rd.pos) = u32At rd.data rd.pos := by
  rw [parse_record] at h
  rcases hA : rd.readU32 with ⟨ra, rd1⟩
  rw [hA] at h
  cases ra with
  | error e => dsimp only [bindR] at h; simp at h
  | ok rec =>
    dsimp only [bindR] at h
    rcases hB : rd1.readExact rec with ⟨rb, rd2⟩
    rw [hB] at h
    cases rb with
    | error e => dsimp only [bindR] at h; simp at h
    | ok bytes =>
      dsimp only [bindR] at h
      rcases hC : rd2.readU32 with ⟨rc, rd3⟩
      rw [hC] at h
      cases rc with
      | error e => dsimp only [bindR] at h; simp at h
      | ok check =>
        dsimp only [bindR] at h
        by_cases heq : check = rec
        · simp [heq] at h
          obtain ⟨-, h2⟩ := h
          obtain ⟨hA1, hA2, hA3⟩ := readU32_eq_ok hA
          obtain ⟨hB1, hB2, hB3⟩ := readExact_eq_ok hB
          obtain ⟨hC1, hC2, hC3⟩ := readU32_eq_ok hC
          subst hA3
          subst hB3
          subst hC3
          simp at hB1 hC1 hC2 ⊢
          rw [← h2]
          simp
          rw [← hA2]
          refine ⟨by omega, by omega, ?_⟩
          rw [← hC2]
          exact heq
        · simp [heq] at h

theorem parse_dimensions_bad_tag {rd : Rd} (h4 : rd.pos + 4 ≤ rd.data.length)
    (hne : u32At rd.data rd.pos ≠ 24) :
    parse_dimensions rd = (.error .recLength, { rd with pos := rd.pos + 4 }) := by
  rw [parse_dimensions, readU32_of_le h4]
  dsimp only [bindR]
  rw [if_pos (by simpa using hne)]

theorem parse_dimensions_of_le {rd : Rd} (h : rd.pos + 32 ≤ rd.data.length)
    (h24 : u32At rd.data rd.pos = 24) :
    parse_dimensions rd =
      (if u32At rd.data (rd.pos + 28) = 24
        then .ok ⟨u32At rd.data (rd.pos + 4), u32At rd.data (rd.pos + 8),
          u32At rd.data (rd.pos + 12), u32At rd.data (rd.pos + 16),
          u32At rd.data (rd.pos + 20), u32At rd.data (rd.pos + 24)⟩
        else .error .recLength,
       { rd with pos := rd.pos + 32 }) := by
  rw [parse_dimensions, readU32_of_le (by omega)]
  dsimp only [bindR]
  rw [if_neg (by simpa using h24), readU32_of_le (by simp; omega)]
  dsimp only [bindR]
  rw [readU32_of_le (by simp; omega)]
  dsimp only [bindR]
  rw [readU32_of_le (by simp; omega)]
  dsimp only [bindR]
  rw [readU32_of_le (by simp; omega)]
  dsimp only [bindR]
  rw [readU32_of_le (by simp; omega)]
  dsimp only [bindR]
  rw [readU32_of_le (by simp; omega)]
  dsimp only [bindR]
  rw [readU32_of_le (by simp; omega)]
  dsimp only [bindR]
  have e1 : rd.pos + 4 + 4 = rd.pos + 8 := by omega
  have e2 : rd.pos + 4 + 4 + 4 = rd.pos + 12 := by omega
  have e3 : rd.pos + 4 + 4 + 4 + 4 = rd.pos + 16 := by omega
  have e4 : rd.pos + 4 + 4 + 4 + 4 + 4 = rd.pos + 20 := by omega
  have e5 : rd.pos + 4 + 4 + 4 + 4 + 4 + 4 = rd.pos + 24 := by omega
  have e6 : rd.pos + 4 + 4 + 4 + 4 + 4 + 4 + 4 = rd.pos + 28 := by omega
  have e7 : rd.pos + 4 + 4 + 4 + 4 + 4 + 4 + 4 + 4 = rd.pos + 32 := by omega
  rw [e1, e2, e3, e4, e5, e6, e7, h24]
  by_cases hc : u32At rd.data (rd.pos + 28) = 24
  · rw [if_neg (by simpa using hc), if_pos hc]
  · rw [if_pos (by simpa using hc), if_neg hc]

theorem parse_dimensions_eq_ok {rd : Rd} {d : Dimensions} {rd' : Rd}
    (h : parse_dimensions rd = (.ok d, rd')) :
    rd'.data = rd.data ∧ rd'.pos = rd.pos + 32 ∧ rd'.pos ≤ rd.data.length ∧
      u32At rd.data rd.pos = 24 ∧ u32At rd.data (rd.pos + 28) = 24 := by
  by_cases h4 : rd.pos + 4 ≤ rd.data.length
  · by_cases h24 : u32At rd.data rd.pos = 24
    · by_cases h32 : rd.pos + 32 ≤ rd.data.length
      · rw [parse_dimensions_of_le h32 h24] at h
        by_cases hc : u32At rd.data (rd.pos + 28) = 24
        · rw [if_pos hc] at h
          obtain ⟨-, h2⟩ := Prod.mk.injEq .. ▸ h
          rw [← h2]
          exact ⟨rfl, rfl, by simpa using h32, h24, hc⟩
        · rw [if_neg hc] at h
          simp at h
      · -- one of the seven later reads fails with an I/O error
        rw [parse_dimensions, readU32_of_le h4] at h
        dsimp only [bindR] at h
        rw [if_neg (by simpa using h24)] at h
        rcases hB : (({ rd with pos := rd.pos + 4 } : Rd)).readU32 with ⟨rb, rd2⟩
        rw [hB] at h
        cases rb with
        | error e => dsimp only [bindR] at h; simp at h
        | ok v1 =>
          dsimp only [bindR] at h
          obtain ⟨hB1, hB2, hB3⟩ := readU32_eq_ok hB
          simp at hB1
          rcases hC : rd2.readU32 with ⟨rc, rd3⟩
          rw [hC] at h
          cases rc with
          | error e => dsimp only [bindR] at h; simp at h
          | ok v2 =>
            dsimp only [bindR] at h
            obtain ⟨hC1, hC2, hC3⟩ := readU32_eq_ok hC
            rcases hD : rd3.readU32 with ⟨rD, rd4⟩
            rw [hD] at h
            cases rD with
            | error e => dsimp only [bindR] at h; simp at h
            | ok v3 =>
              dsimp only [bindR] at h
              obtain ⟨hD1, hD2, hD3⟩ := readU32_eq_ok hD
              rcases hE : rd4.readU32 with ⟨rE, rd5⟩
              rw [hE] at h
              cases rE with
              | error e => dsimp only [bindR] at h; simp at h
              | ok v4 =>
                dsimp only [bindR] at h
                obtain ⟨hE1, hE2, hE3⟩ := readU32_eq_ok hE
                rcases hF : rd5.readU32 with ⟨rF, rd6⟩
                rw [hF] at h
                cases rF with
                | error e => dsimp only [bindR] at h; simp at h
                | ok v5 =>
                  dsimp only [bindR] at h
                  obtain ⟨hF1, hF2, hF3⟩ := readU32_eq_ok hF
                  rcases hG : rd6.readU32 with ⟨rG, rd7⟩
                  rw [hG] at h
                  cases rG with
                  | error e => dsimp only [bindR] at h; simp at h
                  | ok v6 =>
                    dsimp only [bindR] at h
                    obtain ⟨hG1, hG2, hG3⟩ := readU32_eq_ok hG
                    rcases hH : rd7.readU32 with ⟨rH, rd8⟩
                    rw [hH] at h
                    cases rH with
                    | error e => dsimp only [bindR] at h; simp at h
                    | ok v7 =>
                      obtain ⟨hH1, -, -⟩ := readU32_eq_ok hH
                      exfalso
                      subst hB3; subst hC3; subst hD3; subst hE3; subst hF3; subst hG3
                      simp at hH1
                      omega
    · rw [parse_dimensions_bad_tag h4 h24] at h
      simp at h
  · rw [parse_dimensions] at h
    rw [readU32_at_end (by omega)] at h
    dsimp only [bindR] at h
    simp at h

theorem parse_slice_header_eq_ok {rd : Rd} {hd : SliceHeader} {rd' : Rd}
    (h : parse_slice_header rd = (.ok hd, rd')) :
    rd'.data = rd.data ∧ rd'.pos ≤ rd.data.length := by
  rw [parse_slice_header] at h
  rcases hA : parse_record rd with ⟨ra, rd1⟩
  rw [hA] at h
  cases ra with
  | error e => dsimp only [bindR] at h; simp at h
  | ok q =>
    dsimp only [bindR] at h
    rcases hB : parse_record rd1 with ⟨rb, rd2⟩
    rw [hB] at h
    cases rb with
    | error e => dsimp only [bindR] at h; simp at h
    | ok sn =>
      dsimp only [bindR] at h
      rcases hC : parse_record rd2 with ⟨rc, rd3⟩
      rw [hC] at h
      cases rc with
      | error e => dsimp only [bindR] at h; simp at h
      | ok un =>
        dsimp only [bindR] at h
        rcases hD : parse_dimensions rd3 with ⟨rD, rd4⟩
        rw [hD] at h
        cases rD with
        | error e => dsimp only [bindR] at h; simp at h
        | ok dims =>
          dsimp only [bindR] at h
          obtain ⟨-, h2⟩ := Prod.mk.injEq .. ▸ h
          obtain ⟨hA1, -, -, -⟩ := parse_record_eq_ok hA
          obtain ⟨hB1, -, -, -⟩ := parse_record_eq_ok hB
          obtain ⟨hC1, -, -, -⟩ := parse_record_eq_ok hC
          obtain ⟨hD1, -, hD3, -⟩ := parse_dimensions_eq_ok hD
          rw [← h2]
          rw [hD1, hC1, hB1, hA1]
          refine ⟨rfl, ?_⟩
          rw [hC1, hB1, hA1] at hD3
          exact hD3

theorem frame_length_eq (p : SliceParser) :
    p.frame_length = 20 + 4 * n_values p.header.dimensions.i_dim
      p.header.dimensions.j_dim p.header.dimensions.k_dim := by
  rw [SliceParser.frame_length]
  omega

theorem frame_length_congr {p q : SliceParser}
    (h : p.header.dimensions = q.header.dimensions) :
    p.frame_length = q.frame_length := by
  rw [frame_length_eq, frame_length_eq, h]

theorem parse_frame_ok {p : SliceParser} {f : Frame} {p' : SliceParser}
    (h : p.parse_frame = (.ok f, p')) :
    p'.rd.data = p.rd.data ∧ p'.rd.pos = p.rd.pos + p.frame_length ∧
      p'.rd.pos ≤ p.rd.data.length ∧ p'.header = p.header ∧
      p'.header_length = p.header_length := by
  rw [SliceParser.parse_frame] at h
  rcases hA : parse_data_set p.header.dimensions.i_dim p.header.dimensions.j_dim
      p.header.dimensions.k_dim p.rd with ⟨ra, rd1⟩
  rw [hA] at h
  cases ra with
  | error e => simp at h
  | ok fr =>
    simp at h
    obtain ⟨-, h2⟩ := h
    obtain ⟨hd1, hd2, hd3, -, -⟩ := parse_data_set_eq_ok hA
    rw [← h2]
    simp [hd1, hd2, hd3]
    rw [frame_length_eq]
    omega

theorem parse_frame_fst_congr {p q : SliceParser} (hrd : p.rd = q.rd)
    (hh : p.header = q.header) :
    p.parse_frame.1 = q.parse_frame.1 := by
  rw [SliceParser.parse_frame, SliceParser.parse_frame, hrd, hh]
  rcases h : parse_data_set q.header.dimensions.i_dim q.header.dimensions.j_dim
      q.header.dimensions.k_dim q.rd with ⟨r, rd1⟩
  cases r with
  | error e => simp
  | ok fr => simp

theorem new_ok {rd : Rd} {p : SliceParser} (h : SliceParser.new rd = .ok p) :
    p.header_length = p.rd.pos ∧ p.rd.data = rd.data ∧
      p.rd.pos ≤ rd.data.length ∧ p.current_frame = 0 := by
  rw [SliceParser.new] at h
  rcases hA : parse_slice_header rd with ⟨ra, rd1⟩
  rw [hA] at h
  cases ra with
  | error e => simp at h
  | ok hd =>
    simp at h
    obtain ⟨h1, h2⟩ := parse_slice_header_eq_ok hA
    rw [← h]
    exact ⟨rfl, h1, h2, rfl⟩

theorem seqRead_zero (p : SliceParser) : seqRead p 0 = p.parse_frame := rfl

theorem seqRead_succ (p : SliceParser) (n : Nat) :
    seqRead p (n + 1) = seqRead p.parse_frame.2 n := rfl

theorem stepN_ok_inv :
    ∀ (k : Nat) (p : SliceParser),
      (∀ i, i < k → ∃ f, (seqRead p i).1 = .ok f) →
      (stepN p k).rd.data = p.rd.data ∧
        (stepN p k).rd.pos = p.rd.pos + p.frame_length * k ∧
        (stepN p k).header = p.header := by
  intro k
  induction k with
  | zero => intro p _; simp [stepN]
  | succ m ih =>
    intro p hseq
    obtain ⟨f, hf⟩ := hseq 0 (by omega)
    rcases hpf : p.parse_frame with ⟨r, p1⟩
    have hr : r = .ok f := by
      have := seqRead_zero p
      rw [hpf] at this
      rw [seqRead_zero, hpf] at hf
      exact hf
    subst hr
    obtain ⟨hd1, hd2, hd3, hd4, hd5⟩ := parse_frame_ok hpf
    have hseq1 : ∀ i, i < m → ∃ g, (seqRead p1 i).1 = .ok g := by
      intro i hi
      have := hseq (i + 1) (by omega)
      rw [seqRead_succ, hpf] at this
      exact this
    obtain ⟨ih1, ih2, ih3⟩ := ih p1 hseq1
    have hfl : p1.frame_length = p.frame_length :=
      frame_length_congr (by rw [hd4])
    have hstep : stepN p (m + 1) = stepN p1 m := by
      rw [stepN, hpf]
    rw [hstep]
    refine ⟨by rw [ih1, hd1], ?_, by rw [ih3, hd4]⟩
    rw [ih2, hd2, hfl, Nat.mul_succ]
    omega

theorem parse_frame_at_end {p : SliceParser} (h : p.rd.data.length ≤ p.rd.pos) :
    p.parse_frame =
      (.error .ioError, { p with rd := { p.rd with pos := p.rd.data.length } }) := by
  rw [SliceParser.parse_frame]
  have hds : parse_data_set p.header.dimensions.i_dim p.header.dimensions.j_dim
      p.header.dimensions.k_dim p.rd =
      (.error .ioError, { p.rd with pos := p.rd.data.length }) := by
    rw [parse_data_set, readU32_at_end (by omega)]
    rfl
  rw [hds]

theorem seqRead_at_end :
    ∀ (n : Nat) (p : SliceParser), p.rd.data.length ≤ p.rd.pos →
      (seqRead p n).1 = .error .ioError := by
  intro n
  induction n with
  | zero =>
    intro p h
    rw [seqRead_zero, parse_frame_at_end h]
  | succ m ih =>
    intro p h
    rw [seqRead_succ, parse_frame_at_end h]
    exact ih _ (by simp)

theorem collectFrames_spec :
    ∀ (fuel : Nat) (p : SliceParser),
      p.rd.pos ≤ p.rd.data.length →
      p.rd.data.length + 1 - p.rd.pos ≤ fuel →
      (∀ i (hi : i < (collectFrames p fuel).length),
          (seqRead p i).1 = .ok ((collectFrames p fuel).get ⟨i, hi⟩)) ∧
        (∀ f, (seqRead p (collectFrames p fuel).length).1 ≠ .ok f) := by
  intro fuel
  induction fuel with
  | zero => intro p h1 h2; omega
  | succ m ih =>
    intro p h1 h2
    rcases hpf : p.parse_frame with ⟨r, p1⟩
    cases r with
    | error e =>
      have hc : collectFrames p (m + 1) = [] := by rw [collectFrames, hpf]
      rw [hc]
      constructor
      · intro i hi; simp at hi
      · intro f
        rw [List.length_nil, seqRead_zero, hpf]
        simp
    | ok fr =>
      have hc : collectFrames p (m + 1) = fr :: collectFrames p1 m := by
        rw [collectFrames, hpf]
      obtain ⟨hd1, hd2, hd3, hd4, hd5⟩ := parse_frame_ok hpf
      have hfl : 20 ≤ p.frame_length := by rw [frame_length_eq]; omega
      have hih := ih p1 (by rw [hd1]; exact hd3) (by rw [hd1, hd2]; omega)
      rw [hc]
      constructor
      · intro i hi
        cases i with
        | zero =>
          rw [seqRead_zero, hpf]
          simp
        | succ j =>
          rw [seqRead_succ, hpf]
          simp only [List.length_cons] at hi
          have hj : j < (collectFrames p1 m).length := by omega
          have := hih.1 j hj
          simpa using this
      · intro f
        rw [List.length_cons, seqRead_succ, hpf]
        exact hih.2 f

theorem Rd.ext' {a b : Rd} (h1 : a.data = b.data) (h2 : a.pos = b.pos) : a = b := by
  cases a; cases b; simp at h1 h2; rw [h1, h2]

/-- Claim C2: for a freshly opened slice parser whose first `k+1` sequential
frame reads succeed, `get_frame k` (random access by seeking to
`header_length + frame_length * k`) returns the same frame as the `(k+1)`-th
sequential `parse_frame` call, and the offset it seeks to equals the cursor
position reached after `k` sequential frame reads. -/
theorem claim_C2 (rd : Rd) (p0 : SliceParser) (k : Nat)
    (hnew : SliceParser.new rd = .ok p0)
    (hseq : ∀ i, i ≤ k → ∃ f, (seqRead p0 i).1 = .ok f) :
    (p0.get_frame k).1 = (seqRead p0 k).1 ∧
      (p0.seek_frame k).1 = (stepN p0 k).rd.pos := by
  obtain ⟨hh, hdata, hle, -⟩ := new_ok hnew
  obtain ⟨s1, s2, s3⟩ := stepN_ok_inv k p0 (fun i hi => hseq i (by omega))
  constructor
  · rw [SliceParser.get_frame, SliceParser.seek_frame]
    dsimp only
    have hrd : ({ p0.rd with pos := p0.header_length + p0.frame_length * k } : Rd) =
        (stepN p0 k).rd :=
      Rd.ext' (by simp [s1]) (by simp [s2, hh])
    exact parse_frame_fst_congr hrd (by rw [s3])
  · rw [SliceParser.seek_frame]
    dsimp only
    rw [s2, hh]

/-- Claim C7: whenever the header parses, `parse_slice_file` returns `Ok`
with exactly the frames decoded by repeated sequential frame reads up to and
excluding the first failing read, in order; a frame-level failure is never
propagated as an error. -/
theorem claim_C7 (rd : Rd) (p : SliceParser)
    (hnew : SliceParser.new rd = .ok p) :
    ∃ sf, parse_slice_file rd = .ok sf ∧ sf.header = p.header ∧
      (∀ i (hi : i < sf.frames.length),
        (seqRead p i).1 = .ok (sf.frames.get ⟨i, hi⟩)) ∧
      (∀ f, (seqRead p sf.frames.length).1 ≠ .ok f) := by
  obtain ⟨hh, hdata, hle, -⟩ := new_ok hnew
  have hspec := collectFrames_spec (p.rd.data.length + 1) p
    (by rw [hdata]; exact hle) (by omega)
  refine ⟨⟨p.header, collectFrames p (p.rd.data.length + 1)⟩, ?_, rfl,
    hspec.1, hspec.2⟩
  rw [parse_slice_file, hnew]

/-- Claim C10 (amended): the iterator's `next` always returns
`Some(self.parse_frame())`, never `None`; once the cursor is at or past the
end of the stream, every further sequential read keeps returning an I/O
error forever. (After a corrupt record, as opposed to end of stream, the
reader has advanced past the record and later reads may succeed; see the
counterexample.) -/
theorem claim_C10 :
    (∀ p : SliceParser, p.iterNext = some p.parse_frame) ∧
    (∀ (p : SliceParser) (n : Nat), p.rd.data.length ≤ p.rd.pos →
      (seqRead p n).1 = .error .ioError) :=
  ⟨fun _ => rfl, fun p n h => seqRead_at_end n p h⟩

/-- A parser positioned past the end of its stream (used to witness
claim C10's end-of-stream clause). -/
def c10end : SliceParser := ⟨⟨[1, 2, 3], 5⟩, ⟨[], [], [], ⟨0, 0, 0, 0, 0, 0⟩⟩, 0, 0⟩

theorem claim_C10_witness :
    c10end.iterNext = some c10end.parse_frame ∧
      (seqRead c10end 2).1 = .error .ioError :=
  ⟨claim_C10.1 c10end, claim_C10.2 c10end 2 (by decide)⟩

/-- A parser over a stream whose first frame record has mismatched tags
(4 vs 5) followed by one well-formed frame. -/
def c10p : SliceParser :=
  ⟨⟨[4, 0, 0, 0, 0, 0, 0, 0, 5, 0, 0, 0] ++
    ([4, 0, 0, 0, 1, 0, 0, 0, 4, 0, 0, 0] ++ [4, 0, 0, 0, 7, 0, 0, 0, 4, 0, 0, 0]), 0⟩,
   ⟨[], [], [], ⟨0, 0, 0, 0, 0, 0⟩⟩, 0, 0⟩

/-- Counterexample to claim C10 as stated: after a corrupt record the
iterator does NOT keep returning `Some(Err(..))` forever — the reader has
advanced past the corrupt bytes and the very next call succeeds. -/
theorem claim_C10_cex :
    (seqRead c10p 0).1 = .error .recLength ∧ (seqRead c10p 1).1 = .ok ⟨1, [7]⟩ :=
  ⟨rfl, rfl⟩

theorem dim_eq {a b : Nat} (hle : b ≤ a) (ha : a < w32) (hlt : a - b + 1 < w32) :
    wadd32 (wsub32 a b) 1 = a - b + 1 := by
  have hw : w32 = 4294967296 := rfl
  simp only [wsub32, wadd32, hw] at ha hlt ⊢
  omega

theorem nvals_eq {e1 e2 e3 : Nat} (h2 : 1 ≤ e2) (h3 : 1 ≤ e3)
    (h : e1 * (e2 * e3) < w32) : n_values e1 e2 e3 = e1 * (e2 * e3) := by
  have h12 : e1 * e2 < w32 := by
    calc e1 * e2 ≤ e1 * e2 * e3 := Nat.le_mul_of_pos_right _ (by omega)
    _ = e1 * (e2 * e3) := by rw [Nat.mul_assoc]
    _ < w32 := h
  rw [n_values, wmul32, wmul32, Nat.mod_eq_of_lt h12, ← Nat.mul_assoc] at *
  exact Nat.mod_eq_of_lt h

/-- Claim C8 (amended): for a header whose `u32` bounds satisfy
`i_min ≤ i_max`, `j_min ≤ j_max`, `k_min ≤ k_max` AND whose extent product
`(i_max-i_min+1)*(j_max-j_min+1)*(k_max-k_min+1)` is below 2^32 (otherwise
the `u32` multiplication wraps — see the counterexample), `frame_length`
equals `12 + (8 + 4*N)` with `N` that product, and it is a pure function of
the dimensions alone. -/
theorem claim_C8 (p : SliceParser)
    (h1 : p.header.dimensions.i_min ≤ p.header.dimensions.i_max)
    (h2 : p.header.dimensions.j_min ≤ p.header.dimensions.j_max)
    (h3 : p.header.dimensions.k_min ≤ p.header.dimensions.k_max)
    (hb1 : p.header.dimensions.i_max < w32)
    (hb2 : p.header.dimensions.j_max < w32)
    (hb3 : p.header.dimensions.k_max < w32)
    (hN : (p.header.dimensions.i_max - p.header.dimensions.i_min + 1) *
        ((p.header.dimensions.j_max - p.header.dimensions.j_min + 1) *
          (p.header.dimensions.k_max - p.header.dimensions.k_min + 1)) < w32) :
    p.frame_length = 12 + (8 + 4 *
      ((p.header.dimensions.i_max - p.header.dimensions.i_min + 1) *
        ((p.header.dimensions.j_max - p.header.dimensions.j_min + 1) *
          (p.header.dimensions.k_max - p.header.dimensions.k_min + 1)))) ∧
    ∀ q : SliceParser, q.header.dimensions = p.header.dimensions →
      q.frame_length = p.frame_length := by
  constructor
  · have he2 : 1 ≤ p.header.dimensions.j_max - p.header.dimensions.j_min + 1 := by omega
    have he3 : 1 ≤ p.header.dimensions.k_max - p.header.dimensions.k_min + 1 := by omega
    have hd1 : Dimensions.i_dim p.header.dimensions =
        p.header.dimensions.i_max - p.header.dimensions.i_min + 1 := by
      rw [Dimensions.i_dim]
      refine dim_eq h1 hb1 ?_
      calc p.header.dimensions.i_max - p.header.dimensions.i_min + 1
          ≤ (p.header.dimensions.i_max - p.header.dimensions.i_min + 1) *
            ((p.header.dimensions.j_max - p.header.dimensions.j_min + 1) *
              (p.header.dimensions.k_max - p.header.dimensions.k_min + 1)) :=
            Nat.le_mul_of_pos_right _ (Nat.mul_pos (by omega) (by omega))
        _ < w32 := hN
    have hd2 : Dimensions.j_dim p.header.dimensions =
        p.header.dimensions.j_max - p.header.dimensions.j_min + 1 := by
      rw [Dimensions.j_dim]
      refine dim_eq h2 hb2 ?_
      have hle : p.header.dimensions.j_max - p.header.dimensions.j_min + 1 ≤
          (p.header.dimensions.i_max - p.header.dimensions.i_min + 1) *
            ((p.header.dimensions.j_max - p.header.dimensions.j_min + 1) *
              (p.header.dimensions.k_max - p.header.dimensions.k_min + 1)) := by
        calc p.header.dimensions.j_max - p.header.dimensions.j_min + 1
            ≤ (p.header.dimensions.j_max - p.header.dimensions.j_min + 1) *
              (p.header.dimensions.k_max - p.header.dimensions.k_min + 1) :=
              Nat.le_mul_of_pos_right _ (by omega)
          _ ≤ _ := Nat.le_mul_of_pos_left _ (by omega)
      exact lt_of_le_of_lt hle hN
    have hd3 : Dimensions.k_dim p.header.dimensions =
        p.header.dimensions.k_max - p.header.dimensions.k_min + 1 := by
      rw [Dimensions.k_dim]
      refine dim_eq h3 hb3 ?_
      have hle : p.header.dimensions.k_max - p.header.dimensions.k_min + 1 ≤
          (p.header.dimensions.i_max - p.header.dimensions.i_min + 1) *
            ((p.header.dimensions.j_max - p.header.dimensions.j_min + 1) *
              (p.header.dimensions.k_max - p.header.dimensions.k_min + 1)) := by
        calc p.header.dimensions.k_max - p.header.dimensions.k_min + 1
            ≤ (p.header.dimensions.j_max - p.header.dimensions.j_min + 1) *
              (p.header.dimensions.k_max - p.header.dimensions.k_min + 1) :=
              Nat.le_mul_of_pos_left _ (by omega)
          _ ≤ _ := Nat.le_mul_of_pos_left _ (by omega)
      exact lt_of_le_of_lt hle hN
    rw [frame_length_eq, hd1, hd2, hd3, nvals_eq he2 he3 hN]
    omega
  · intro q hq
    exact frame_length_congr hq

/-- A parser with the smallest header (all bounds zero), witnessing C8. -/
def c8wit : SliceParser := ⟨⟨[], 0⟩, ⟨[], [], [], ⟨0, 0, 0, 0, 0, 0⟩⟩, 0, 0⟩

theorem claim_C8_witness :
    c8wit.frame_length = 12 + (8 + 4 *
      ((c8wit.header.dimensions.i_max - c8wit.header.dimensions.i_min + 1) *
        ((c8wit.header.dimensions.j_max - c8wit.header.dimensions.j_min + 1) *
          (c8wit.header.dimensions.k_max - c8wit.header.dimensions.k_min + 1)))) ∧
    ∀ q : SliceParser, q.header.dimensions = c8wit.header.dimensions →
      q.frame_length = c8wit.frame_length :=
  claim_C8 c8wit (by decide) (by decide) (by decide) (by decide) (by decide)
    (by decide) (by decide)

/-- Header bytes declaring the index sub-region `i∈[0,65535]`, `j∈[0,65535]`,
`k∈[0,0]`: three empty text records then the 24-byte dimensions record. -/
def c8rd : Rd :=
  ⟨[0, 0, 0, 0, 0, 0, 0, 0] ++ [0, 0, 0, 0, 0, 0, 0, 0] ++ [0, 0, 0, 0, 0, 0, 0, 0] ++
    ([24, 0, 0, 0] ++ [0, 0, 0, 0] ++ [255, 255, 0, 0] ++ [0, 0, 0, 0] ++
      [255, 255, 0, 0] ++ [0, 0, 0, 0] ++ [0, 0, 0, 0] ++ [24, 0, 0, 0]), 0⟩

/-- Counterexample to claim C8 as stated: a parsed header whose bounds
satisfy `i_min ≤ i_max`, `j_min ≤ j_max`, `k_min ≤ k_max`, yet
`frame_length` (20, because the 65536·65536·1 extent product wraps to 0 in
`u32` arithmetic) differs from the claimed `12 + (8 + 4*N)` value. -/
theorem claim_C8_cex :
    ∃ p, SliceParser.new c8rd = .ok p ∧
      p.header.dimensions.i_min ≤ p.header.dimensions.i_max ∧
      p.header.dimensions.j_min ≤ p.header.dimensions.j_max ∧
      p.header.dimensions.k_min ≤ p.header.dimensions.k_max ∧
      p.frame_length ≠ 12 + (8 + 4 *
        ((p.header.dimensions.i_max - p.header.dimensions.i_min + 1) *
          ((p.header.dimensions.j_max - p.header.dimensions.j_min + 1) *
            (p.header.dimensions.k_max - p.header.dimensions.k_min + 1)))) := by
  refine ⟨⟨⟨c8rd.data, 56⟩, ⟨[], [], [], ⟨0, 65535, 0, 65535, 0, 0⟩⟩, 0, 56⟩,
    rfl, by decide, by decide, by decide, by decide⟩

/-- Claim C9: when decoding one frame, the declared record length is never
compared against the expected payload size — given enough bytes, the frame
decodes successfully exactly when the two tag pairs match (whatever their
values), the time sub-record always consumes its 12 bytes and the data
sub-record its `8 + 4*N` bytes regardless of the tag values, and a tag
mismatch yields `RecLengthError`. -/
theorem claim_C9 (i j k : Nat) (rd : Rd)
    (h : rd.pos + 20 + 4 * n_values i j k ≤ rd.data.length) :
    ((∃ f, (parse_data_set i j k rd).1 = .ok f) ↔
      (u32At rd.data (rd.pos + 8) = u32At rd.data rd.pos ∧
        u32At rd.data (rd.pos + 16 + 4 * n_values i j k) = u32At rd.data (rd.pos + 12))) ∧
    (u32At rd.data (rd.pos + 8) ≠ u32At rd.data rd.pos →
      parse_data_set i j k rd = (.error .recLength, { rd with pos := rd.pos + 12 })) ∧
    (u32At rd.data (rd.pos + 8) = u32At rd.data rd.pos →
      (parse_data_set i j k rd).2 = { rd with pos := rd.pos + 20 + 4 * n_values i j k }) ∧
    (u32At rd.data (rd.pos + 8) = u32At rd.data rd.pos →
      u32At rd.data (rd.pos + 16 + 4 * n_values i j k) ≠ u32At rd.data (rd.pos + 12) →
      (parse_data_set i j k rd).1 = .error .recLength) := by
  have hps := parse_data_set_of_le h
  by_cases hc1 : u32At rd.data (rd.pos + 8) = u32At rd.data rd.pos
  · by_cases hc2 : u32At rd.data (rd.pos + 16 + 4 * n_values i j k) =
        u32At rd.data (rd.pos + 12)
    · rw [hps]
      simp [hc1, hc2]
    · rw [hps]
      simp [hc1, hc2]
  · rw [hps]
    simp [hc1]

/-- A framed frame (`N = 1`) whose two record-length tags are equal but carry
the wrong value 999 in both records. -/
def c9rd : Rd :=
  ⟨[231, 3, 0, 0, 5, 0, 0, 0, 231, 3, 0, 0] ++
    [231, 3, 0, 0, 7, 0, 0, 0, 231, 3, 0, 0], 0⟩

theorem claim_C9_witness :
    (((∃ f, (parse_data_set 1 1 1 c9rd).1 = .ok f) ↔
      (u32At c9rd.data (c9rd.pos + 8) = u32At c9rd.data c9rd.pos ∧
        u32At c9rd.data (c9rd.pos + 16 + 4 * n_values 1 1 1) =
          u32At c9rd.data (c9rd.pos + 12))) ∧
      (u32At c9rd.data (c9rd.pos + 8) ≠ u32At c9rd.data c9rd.pos →
        parse_data_set 1 1 1 c9rd = (.error .recLength, { c9rd with pos := c9rd.pos + 12 })) ∧
      (u32At c9rd.data (c9rd.pos + 8) = u32At c9rd.data c9rd.pos →
        (parse_data_set 1 1 1 c9rd).2 = { c9rd with pos := c9rd.pos + 20 + 4 * n_values 1 1 1 }) ∧
      (u32At c9rd.data (c9rd.pos + 8) = u32At c9rd.data c9rd.pos →
        u32At c9rd.data (c9rd.pos + 16 + 4 * n_values 1 1 1) ≠
          u32At c9rd.data (c9rd.pos + 12) →
        (parse_data_set 1 1 1 c9rd).1 = .error .recLength)) ∧
    (parse_data_set 1 1 1 c9rd).1 = .ok ⟨5, [7]⟩ :=
  ⟨claim_C9 1 1 1 c9rd (by decide), rfl⟩

/-- Stream whose very first (text) record has mismatched tags 1 and 2. -/
def c3rd : Rd := ⟨[1, 0, 0, 0, 65, 2, 0, 0, 0], 0⟩

/-- Counterexample to claim C3 as stated: a slice input whose first header
text record carries differing leading/trailing tags makes `parse_slice_file`
panic (the `panic!` in `parse_record`) instead of failing with a framing
error. -/
theorem claim_C3_cex : parse_slice_file c3rd = .error .panicked := rfl

/-- Claim C3 (amended): a tag mismatch in the dimensions record or in either
frame sub-record fails at that record with `RecLengthError` and a mismatch is
never decoded as a success; but in the three header text records
(`parse_record`) a tag mismatch panics instead of returning a framing
error. -/
theorem claim_C3 :
    (∀ (rd : Rd) (bs : List Nat) (rd' : Rd), parse_record rd = (.ok bs, rd') →
      u32At rd.data (rd.pos + 4 + u32At rd.data rd.pos) = u32At rd.data rd.pos) ∧
    (∀ rd : Rd, rd.pos + 8 + u32At rd.data rd.pos ≤ rd.data.length →
      u32At rd.data (rd.pos + 4 + u32At rd.data rd.pos) ≠ u32At rd.data rd.pos →
      parse_record rd =
        (.error .panicked, { rd with pos := rd.pos + 8 + u32At rd.data rd.pos })) ∧
    (∀ rd : Rd, rd.pos + 4 ≤ rd.data.length → u32At rd.data rd.pos ≠ 24 →
      parse_dimensions rd = (.error .recLength, { rd with pos := rd.pos + 4 })) ∧
    (∀ rd : Rd, rd.pos + 32 ≤ rd.data.length → u32At rd.data rd.pos = 24 →
      u32At rd.data (rd.pos + 28) ≠ 24 →
      parse_dimensions rd = (.error .recLength, { rd with pos := rd.pos + 32 })) ∧
    (∀ (rd : Rd) (d : Dimensions) (rd' : Rd), parse_dimensions rd = (.ok d, rd') →
      u32At rd.data rd.pos = 24 ∧ u32At rd.data (rd.pos + 28) = 24) ∧
    (∀ (i j k : Nat) (rd : Rd), rd.pos + 12 ≤ rd.data.length →
      u32At rd.data (rd.pos + 8) ≠ u32At rd.data rd.pos →
      parse_data_set i j k rd = (.error .recLength, { rd with pos := rd.pos + 12 })) ∧
    (∀ (i j k : Nat) (rd : Rd), rd.pos + 20 + 4 * n_values i j k ≤ rd.data.length →
      u32At rd.data (rd.pos + 8) = u32At rd.data rd.pos →
      u32At rd.data (rd.pos + 16 + 4 * n_values i j k) ≠ u32At rd.data (rd.pos + 12) →
      (parse_data_set i j k rd).1 = .error .recLength) ∧
    (∀ (i j k : Nat) (rd : Rd) (f : Frame) (rd' : Rd),
      parse_data_set i j k rd = (.ok f, rd') →
      u32At rd.data (rd.pos + 8) = u32At rd.data rd.pos ∧
      u32At rd.data (rd.pos + 16 + 4 * n_values i j k) = u32At rd.data (rd.pos + 12)) := by
  refine ⟨?_, ?_, ?_, ?_, ?_, ?_, ?_, ?_⟩
  · intro rd bs rd' h
    exact (parse_record_eq_ok h).2.2.2
  · intro rd h hne
    rw [parse_record_of_le h, if_neg hne]
  · intro rd h4 hne
    exact parse_dimensions_bad_tag h4 hne
  · intro rd h32 h24 hne
    rw [parse_dimensions_of_le h32 h24, if_neg hne]
  · intro rd d rd' h
    obtain ⟨-, -, -, ht1, ht2⟩ := parse_dimensions_eq_ok h
    exact ⟨ht1, ht2⟩
  · intro i j k rd h12 hne
    rw [parse_data_set, readU32_of_le (by omega)]
    dsimp only [bindR]
    rw [Rd.readF32, readU32_of_le (by simp; omega)]
    dsimp only [bindR]
    rw [readU32_of_le (by simp; omega)]
    dsimp only [bindR]
    have e1 : rd.pos + 4 + 4 = rd.pos + 8 := by omega
    have e2 : rd.pos + 4 + 4 + 4 = rd.pos + 12 := by omega
    rw [e1, e2, if_pos (by simpa using hne)]
  · intro i j k rd h he hne
    rw [parse_data_set_of_le h]
    simp [he, hne]
  · intro i j k rd f rd' h
    obtain ⟨-, -, -, ht1, ht2⟩ := parse_data_set_eq_ok h
    exact ⟨ht1, ht2⟩

theorem claim_C3_witness :
    parse_record ⟨[1, 0, 0, 0, 65, 2, 0, 0, 0], 0⟩ =
      (.error .panicked, ⟨[1, 0, 0, 0, 65, 2, 0, 0, 0], 9⟩) ∧
    parse_data_set 1 1 1 ⟨[4, 0, 0, 0, 0, 0, 0, 0, 5, 0, 0, 0], 0⟩ =
      (.error .recLength, ⟨[4, 0, 0, 0, 0, 0, 0, 0, 5, 0, 0, 0], 12⟩) := by
  constructor
  · have := claim_C3.2.1 ⟨[1, 0, 0, 0, 65, 2, 0, 0, 0], 0⟩ (by decide) (by decide)
    simpa using this
  · have := claim_C3.2.2.2.2.2.1 1 1 1 ⟨[4, 0, 0, 0, 0, 0, 0, 0, 5, 0, 0, 0], 0⟩
      (by decide) (by decide)
    simpa using this

/-- A two-frame slice file: empty text records, 1x1x1 dimensions, frames
(time 1, value 7) and (time 2, value 9). -/
def c2bytes : List Nat :=
  [0, 0, 0, 0, 0, 0, 0, 0] ++ [0, 0, 0, 0, 0, 0, 0, 0] ++ [0, 0, 0, 0, 0, 0, 0, 0] ++
    ([24, 0, 0, 0] ++ [0, 0, 0, 0] ++ [0, 0, 0, 0] ++ [0, 0, 0, 0] ++ [0, 0, 0, 0] ++
      [0, 0, 0, 0] ++ [0, 0, 0, 0] ++ [24, 0, 0, 0]) ++
    ([4, 0, 0, 0, 1, 0, 0, 0, 4, 0, 0, 0] ++ [4, 0, 0, 0, 7, 0, 0, 0, 4, 0, 0, 0]) ++
    ([4, 0, 0, 0, 2, 0, 0, 0, 4, 0, 0, 0] ++ [4, 0, 0, 0, 9, 0, 0, 0, 4, 0, 0, 0])

/-- The file of `c2bytes` as an unread stream. -/
def c2rd : Rd := ⟨c2bytes, 0⟩

/-- The parser state right after opening `c2rd`. -/
def c2p : SliceParser := ⟨⟨c2bytes, 56⟩, ⟨[], [], [], ⟨0, 0, 0, 0, 0, 0⟩⟩, 0, 56⟩

theorem claim_C2_witness :
    (c2p.get_frame 1).1 = (seqRead c2p 1).1 ∧
      (c2p.seek_frame 1).1 = (stepN c2p 1).rd.pos :=
  claim_C2 c2rd c2p 1 rfl (fun i hi => by
    have h01 : i = 0 ∨ i = 1 := by omega
    rcases h01 with rfl | rfl
    · exact ⟨⟨1, [7]⟩, rfl⟩
    · exact ⟨⟨2, [9]⟩, rfl⟩)

/-- `c2bytes` truncated in the middle of its second frame. -/
def c7rd : Rd := ⟨c2bytes.take 90, 0⟩

/-- The parser state right after opening `c7rd`. -/
def c7p : SliceParser := ⟨⟨c2bytes.take 90, 56⟩, ⟨[], [], [], ⟨0, 0, 0, 0, 0, 0⟩⟩, 0, 56⟩

theorem claim_C7_witness :
    (∃ sf, parse_slice_file c7rd = .ok sf ∧ sf.header = c7p.header ∧
      (∀ i (hi : i < sf.frames.length),
        (seqRead c7p i).1 = .ok (sf.frames.get ⟨i, hi⟩)) ∧
      (∀ f, (seqRead c7p sf.frames.length).1 ≠ .ok f)) ∧
    parse_slice_file c7rd = .ok ⟨⟨[], [], [], ⟨0, 0, 0, 0, 0, 0⟩⟩, [⟨1, [7]⟩]⟩ :=
  ⟨claim_C7 c7rd c7p rfl, rfl⟩

theorem startsNonWs_eq_false {l : String} (h : startsWs l = true) :
    startsNonWs l = false := by
  rw [startsWs] at h
  rw [startsNonWs]
  cases hd : l.data with
  | nil => rw [hd] at h
  | cons c cs =>
    rw [hd] at h
    simp at h
    simp [h]

theorem ne_empty_of_startsWs {l : String} (h : startsWs l = true) : l ≠ "" := by
  intro he
  subst he
  simp [startsWs] at h

theorem ne_empty_of_startsNonWs {l : String} (h : startsNonWs l = true) : l ≠ "" := by
  intro he
  subst he
  simp [startsNonWs] at h

theorem processLine_of_startsWs {st : ParserState} {p : PendingSmvFile} {l : String}
    (h : startsWs l = true) : processLine st p l = handleLine st p l := by
  rw [processLine, if_neg (ne_empty_of_startsWs h), startsNonWs_eq_false h]
  rfl

theorem processLine_of_startsNonWs {st : ParserState} {p : PendingSmvFile} {l : String}
    (h : startsNonWs l = true) :
    processLine st p l = handleLine (endStep st p).1 (endStep st p).2 l := by
  rw [processLine, if_neg (ne_empty_of_startsNonWs h), h]
  rfl

/-- Pure `Option`-valued map used to phrase "every line parses" hypotheses. -/
def mapOpt {α β : Type} (f : α → Option β) : List α → Option (List β)
  | [] => some []
  | a :: l =>
    match f a, mapOpt f l with
    | some b, some bs => some (b :: bs)
    | _, _ => none

theorem mapOpt_cons {α β : Type} {f : α → Option β} {a : α} {l : List α}
    {hs : List β} (h : mapOpt f (a :: l) = some hs) :
    ∃ b bs, f a = some b ∧ mapOpt f l = some bs ∧ hs = b :: bs := by
  rw [mapOpt] at h
  rcases ha : f a with - | b
  · rw [ha] at h; simp at h
  · rcases hl : mapOpt f l with - | bs
    · rw [ha, hl] at h; simp at h
    · rw [ha, hl] at h
      simp at h
      exact ⟨b, bs, rfl, rfl, h.symm⟩

theorem mapOpt_length {α β : Type} {f : α → Option β} :
    ∀ {l : List α} {hs : List β}, mapOpt f l = some hs → hs.length = l.length := by
  intro l
  induction l with
  | nil => intro hs h; simp [mapOpt] at h; simp [← h]
  | cons a t ih =>
    intro hs h
    obtain ⟨b, bs, -, hl, he⟩ := mapOpt_cons h
    subst he
    simp [ih hl]

theorem getElem?_zip' {α β : Type} :
    ∀ (l : List α) (l' : List β) (i : Nat),
      (l.zip l')[i]? = (l[i]?).bind fun a => (l'[i]?).map fun b => (a, b) := by
  intro l
  induction l with
  | nil => intro l' i; simp
  | cons a t ih =>
    intro l' i
    cases l' with
    | nil => simp
    | cons b t' =>
      cases i with
      | zero => simp
      | succ j => simpa using ih t' j

theorem getElem?_zipWith' {α β γ : Type} (f : α → β → γ) :
    ∀ (l : List α) (l' : List β) (i : Nat),
      (List.zipWith f l l')[i]? = (l[i]?).bind fun a => (l'[i]?).map fun b => f a b := by
  intro l
  induction l with
  | nil => intro l' i; simp
  | cons a t ih =>
    intro l' i
    cases l' with
    | nil => simp
    | cons b t' =>
      cases i with
      | zero => simp
      | succ j => simpa using ih t' j

theorem handleLine_obst2 {n : Nat} {acc : List ObstFirstHalf} {p : PendingSmvFile}
    {l : String} {h : ObstFirstHalf} (hp : ObstFirstHalf.fromStr (trimStr l) = some h) :
    handleLine (.ObstBlock2 n acc) p l =
      if (acc ++ [h]).length ≥ n then .ok (.ObstBlock3 n (acc ++ [h]) [], p)
      else .ok (.ObstBlock2 n (acc ++ [h]), p) := by
  rw [handleLine, hp, unwrapM]

theorem handleLine_obst3 {n : Nat} {fs : List ObstFirstHalf}
    {acc : List ObstSecondHalf} {p : PendingSmvFile} {l : String}
    {h : ObstSecondHalf} (hp : ObstSecondHalf.fromStr (trimStr l) = some h) :
    handleLine (.ObstBlock3 n fs acc) p l =
      if (acc ++ [h]).length ≥ n then
        .ok (.None, { p with obsts := p.obsts ++ [List.zipWith SmvObst.new fs (acc ++ [h])] })
      else .ok (.ObstBlock3 n fs (acc ++ [h]), p) := by
  rw [handleLine, hp, unwrapM]

theorem handleLine_vent2 {n d : Nat} {fv fd : List VentFirstHalf} {p : PendingSmvFile}
    {l : String} {h : VentFirstHalf} (hp : VentFirstHalf.fromStr (trimStr l) = some h) :
    handleLine (.Vent2 n fv d fd) p l =
      (let fv' := if fv.length < n then fv ++ [h] else fv
       let fd' := if fv.length < n then fd
         else if fd.length < d then fd ++ [h] else fd
       if fv'.length < n ∨ fd'.length < d then .ok (.Vent2 n fv' d fd', p)
       else .ok (.Vent3 n fv' [] d fd' [], p)) := by
  rw [handleLine, hp, unwrapM]

theorem handleLine_vent3 {n d : Nat} {fv fd : List VentFirstHalf}
    {sv sd : List VentSecondHalf} {p : PendingSmvFile}
    {l : String} {h : VentSecondHalf} (hp : VentSecondHalf.fromStr (trimStr l) = some h) :
    handleLine (.Vent3 n fv sv d fd sd) p l =
      (let sv' := if sv.length < n then sv ++ [h] else sv
       let sd' := if sv.length < n then sd
         else if sd.length < d then sd ++ [h] else sd
       if sv'.length < n ∨ sd'.length < d then .ok (.Vent3 n fv sv' d fd sd', p)
       else .ok (.None,
         { p with vents := p.vents ++ [List.zipWith SmvVent.new (fv ++ fd) (sv' ++ sd')] })) := by
  rw [handleLine, hp, unwrapM]

theorem runLines_nil (st : ParserState) (p : PendingSmvFile) :
    runLines [] st p = .ok (st, p) := rfl

theorem runLines_cons (l : String) (ls : List String) (st : ParserState)
    (p : PendingSmvFile) :
    runLines (l :: ls) st p =
      match processLine st p l with
      | .ok (st', p') => runLines ls st' p'
      | .error e => .error e := rfl

theorem runLines_append :
    ∀ (a b : List String) (st : ParserState) (p : PendingSmvFile),
      runLines (a ++ b) st p =
        match runLines a st p with
        | .ok (st', p') => runLines b st' p'
        | .error e => .error e := by
  intro a
  induction a with
  | nil => intro b st p; rfl
  | cons l t ih =>
    intro b st p
    rw [List.cons_append, runLines_cons, runLines_cons]
    rcases h : processLine st p l with e | ⟨st', p'⟩
    · rfl
    · exact ih b st' p'

theorem obst_first_pass :
    ∀ (ls : List String) (hs : List ObstFirstHalf) (n : Nat)
      (acc : List ObstFirstHalf) (p : PendingSmvFile),
      mapOpt (fun l => ObstFirstHalf.fromStr (trimStr l)) ls = some hs →
      (∀ l ∈ ls, startsWs l = true) →
      acc.length + ls.length = n →
      ls ≠ [] →
      runLines ls (.ObstBlock2 n acc) p = .ok (.ObstBlock3 n (acc ++ hs) [], p) := by
  intro ls
  induction ls with
  | nil => intro hs n acc p _ _ _ hne; exact absurd rfl hne
  | cons l t ih =>
    intro hs n acc p hmap hws hcount _hne
    obtain ⟨b, bs, hb, hbs, he⟩ := mapOpt_cons hmap
    subst he
    have hwl : startsWs l = true := hws l (by simp)
    rw [runLines_cons, processLine_of_startsWs hwl, handleLine_obst2 hb]
    cases t with
    | nil =>
      simp [mapOpt] at hbs
      subst hbs
      simp at hcount
      rw [if_pos (by simp; omega)]
      rfl
    | cons l2 t2 =>
      have hlt : ¬ (acc ++ [b]).length ≥ n := by
        simp at hcount ⊢
        omega
      rw [if_neg hlt]
      dsimp only
      have hrec := ih bs n (acc ++ [b]) p hbs
        (fun x hx => hws x (by simp [hx]))
        (by simp at hcount ⊢; omega) (by simp)
      rw [hrec]
      simp

theorem obst_second_pass :
    ∀ (ls : List String) (hs : List ObstSecondHalf) (n : Nat)
      (fs : List ObstFirstHalf) (acc : List ObstSecondHalf) (p : PendingSmvFile),
      mapOpt (fun l => ObstSecondHalf.fromStr (trimStr l)) ls = some hs →
      (∀ l ∈ ls, startsWs l = true) →
      acc.length + ls.length = n →
      ls ≠ [] →
      runLines ls (.ObstBlock3 n fs acc) p =
        .ok (.None, { p with obsts := p.obsts ++
          [List.zipWith SmvObst.new fs (acc ++ hs)] }) := by
  intro ls
  induction ls with
  | nil => intro hs n fs acc p _ _ _ hne; exact absurd rfl hne
  | cons l t ih =>
    intro hs n fs acc p hmap hws hcount _hne
    obtain ⟨b, bs, hb, hbs, he⟩ := mapOpt_cons hmap
    subst he
    have hwl : startsWs l = true := hws l (by simp)
    rw [runLines_cons, processLine_of_startsWs hwl, handleLine_obst3 hb]
    cases t with
    | nil =>
      simp [mapOpt] at hbs
      subst hbs
      simp at hcount
      rw [if_pos (by simp; omega)]
      rfl
    | cons l2 t2 =>
      have hlt : ¬ (acc ++ [b]).length ≥ n := by
        simp at hcount ⊢
        omega
      rw [if_neg hlt]
      dsimp only
      have hrec := ih bs n fs (acc ++ [b]) p hbs
        (fun x hx => hws x (by simp [hx]))
        (by simp at hcount ⊢; omega) (by simp)
      rw [hrec]
      simp

/-- Claim C4: an OBST block declaring a count `n ≥ 1` followed by `2n`
well-formed body lines consumes the first `n` lines as first halves and the
next `n` as second halves, appends a per-mesh obstruction list of length
exactly `n`, and obstruction `i` combines the `i`-th first-half line with
the `i`-th second-half line. -/
theorem claim_C4 (n : Nat) (countLine : String) (firsts seconds : List String)
    (h1s : List ObstFirstHalf) (h2s : List ObstSecondHalf) (p : PendingSmvFile)
    (hn : 1 ≤ n)
    (hcw : startsWs countLine = true)
    (hcn : parseNat (trimStr countLine) = some n)
    (h1 : mapOpt (fun l => ObstFirstHalf.fromStr (trimStr l)) firsts = some h1s)
    (h2 : mapOpt (fun l => ObstSecondHalf.fromStr (trimStr l)) seconds = some h2s)
    (hb1 : ∀ l ∈ firsts, startsWs l = true)
    (hb2 : ∀ l ∈ seconds, startsWs l = true)
    (hl1 : firsts.length = n) (hl2 : seconds.length = n) :
    runLines ("OBST" :: countLine :: (firsts ++ seconds)) ParserState.None p =
      .ok (.None, { p with obsts := p.obsts ++ [List.zipWith SmvObst.new h1s h2s] }) ∧
    (List.zipWith SmvObst.new h1s h2s).length = n ∧
    (∀ i, i < n → ∃ a b, h1s[i]? = some a ∧ h2s[i]? = some b ∧
      (List.zipWith SmvObst.new h1s h2s)[i]? = some (SmvObst.new a b)) := by
  have hlen1 : h1s.length = n := by rw [mapOpt_length h1, hl1]
  have hlen2 : h2s.length = n := by rw [mapOpt_length h2, hl2]
  refine ⟨?_, by simp [hlen1, hlen2], ?_⟩
  · have hObst : processLine ParserState.None p "OBST" = .ok (.ObstBlock1, p) := rfl
    rw [runLines_cons, hObst]
    dsimp only
    have hCount : handleLine .ObstBlock1 p countLine = .ok (.ObstBlock2 n [], p) := by
      rw [handleLine, hcn, unwrapM]
    rw [runLines_cons, processLine_of_startsWs hcw, hCount]
    dsimp only
    rw [runLines_append]
    have hfirst := obst_first_pass firsts h1s n [] p h1 hb1 (by simp [hl1])
      (by intro he; rw [he] at hl1; simp at hl1; omega)
    rw [hfirst]
    dsimp only
    have hsecond := obst_second_pass seconds h2s n ([] ++ h1s) [] p h2 hb2
      (by simp [hl2]) (by intro he; rw [he] at hl2; simp at hl2; omega)
    rw [hsecond]
    simp
  · intro i hi
    have hia : i < h1s.length := by omega
    have hib : i < h2s.length := by omega
    refine ⟨h1s[i], h2s[i], by simp [List.getElem?_eq_getElem hia],
      by simp [List.getElem?_eq_getElem hib], ?_⟩
    rw [getElem?_zipWith']
    simp [List.getElem?_eq_getElem hia, List.getElem?_eq_getElem hib]

theorem vent2_fill :
    ∀ (ls : List String) (hs : List VentFirstHalf) (n d : Nat)
      (fv fd : List VentFirstHalf) (p : PendingSmvFile),
      mapOpt (fun l => VentFirstHalf.fromStr (trimStr l)) ls = some hs →
      (∀ l ∈ ls, startsWs l = true) →
      fv.length ≤ n → fd.length ≤ d →
      fv.length + fd.length + ls.length = n + d →
      ls ≠ [] →
      runLines ls (.Vent2 n fv d fd) p =
        .ok (.Vent3 n (fv ++ hs.take (n - fv.length)) [] d
          (fd ++ hs.drop (n - fv.length)) [], p) := by
  intro ls
  induction ls with
  | nil => intro hs n d fv fd p _ _ _ _ _ hne; exact absurd rfl hne
  | cons l t ih =>
    intro hs n d fv fd p hmap hws hfvle hfdle hcount _hne
    obtain ⟨b, bs, hb, hbs, he⟩ := mapOpt_cons hmap
    subst he
    have hwl : startsWs l = true := hws l (by simp)
    rw [runLines_cons, processLine_of_startsWs hwl, handleLine_vent2 hb]
    dsimp only
    by_cases hfv : fv.length < n
    · simp only [if_pos hfv]
      cases t with
      | nil =>
        simp [mapOpt] at hbs
        subst hbs
        simp at hcount
        rw [if_neg (by simp; omega)]
        have h1 : n - fv.length = 1 := by omega
        rw [h1]
        simp
        rfl
      | cons l2 t2 =>
        have hcond : (fv ++ [b]).length < n ∨ fd.length < d := by
          simp at hcount ⊢
          omega
        rw [if_pos hcond]
        dsimp only
        have hrec := ih bs n d (fv ++ [b]) fd p hbs
          (fun x hx => hws x (by simp [hx]))
          (by simp; omega) hfdle (by simp at hcount ⊢; omega) (by simp)
        rw [hrec]
        have htk : n - fv.length = (n - (fv ++ [b]).length) + 1 := by simp; omega
        rw [htk]
        simp [List.append_assoc]
    · have hfveq : fv.length = n := by omega
      simp only [if_neg hfv]
      have hfd : fd.length < d := by
        simp at hcount
        omega
      simp only [if_pos hfd]
      cases t with
      | nil =>
        simp [mapOpt] at hbs
        subst hbs
        simp at hcount
        rw [if_neg (by simp; omega)]
        have h0 : n - fv.length = 0 := by omega
        rw [h0]
        simp
        rfl
      | cons l2 t2 =>
        have hcond : fv.length < n ∨ (fd ++ [b]).length < d := by
          simp at hcount ⊢
          omega
        rw [if_pos hcond]
        dsimp only
        have hrec := ih bs n d fv (fd ++ [b]) p hbs
          (fun x hx => hws x (by simp [hx]))
          hfvle (by simp at hcount ⊢; omega) (by simp at hcount ⊢; omega) (by simp)
        rw [hrec]
        have h0 : n - fv.length = 0 := by omega
        rw [h0]
        simp

theorem vent3_fill :
    ∀ (ls : List String) (hs : List VentSecondHalf) (n d : Nat)
      (fv fd : List VentFirstHalf) (sv sd : List VentSecondHalf) (p : PendingSmvFile),
      mapOpt (fun l => VentSecondHalf.fromStr (trimStr l)) ls = some hs →
      (∀ l ∈ ls, startsWs l = true) →
      sv.length ≤ n → sd.length ≤ d →
      sv.length + sd.length + ls.length = n + d →
      ls ≠ [] →
      runLines ls (.Vent3 n fv sv d fd sd) p =
        .ok (.None, { p with vents := p.vents ++
          [List.zipWith SmvVent.new (fv ++ fd)
            ((sv ++ hs.take (n - sv.length)) ++ (sd ++ hs.drop (n - sv.length)))] }) := by
  intro ls
  induction ls with
  | nil => intro hs n d fv fd sv sd p _ _ _ _ _ hne; exact absurd rfl hne
  | cons l t ih =>
    intro hs n d fv fd sv sd p hmap hws hsvle hsdle hcount _hne
    obtain ⟨b, bs, hb, hbs, he⟩ := mapOpt_cons hmap
    subst he
    have hwl : startsWs l = true := hws l (by simp)
    rw [runLines_cons, processLine_of_startsWs hwl, handleLine_vent3 hb]
    dsimp only
    by_cases hsv : sv.length < n
    · simp only [if_pos hsv]
      cases t with
      | nil =>
        simp [mapOpt] at hbs
        subst hbs
        simp at hcount
        rw [if_neg (by simp; omega)]
        have h1 : n - sv.length = 1 := by omega
        rw [h1]
        simp
        rfl
      | cons l2 t2 =>
        have hcond : (sv ++ [b]).length < n ∨ sd.length < d := by
          simp at hcount ⊢
          omega
        rw [if_pos hcond]
        dsimp only
        have hrec := ih bs n d fv fd (sv ++ [b]) sd p hbs
          (fun x hx => hws x (by simp [hx]))
          (by simp; omega) hsdle (by simp at hcount ⊢; omega) (by simp)
        rw [hrec]
        have htk : n - sv.length = (n - (sv ++ [b]).length) + 1 := by simp; omega
        rw [htk]
        simp [List.append_assoc]
    · have hsveq : sv.length = n := by omega
      simp only [if_neg hsv]
      have hsd : sd.length < d := by
        simp at hcount
        omega
      simp only [if_pos hsd]
      cases t with
      | nil =>
        simp [mapOpt] at hbs
        subst hbs
        simp at hcount
        rw [if_neg (by simp; omega)]
        have h0 : n - sv.length = 0 := by omega
        rw [h0]
        simp
        rfl
      | cons l2 t2 =>
        have hcond : sv.length < n ∨ (sd ++ [b]).length < d := by
          simp at hcount ⊢
          omega
        rw [if_pos hcond]
        dsimp only
        have hrec := ih bs n d fv fd sv (sd ++ [b]) p hbs
          (fun x hx => hws x (by simp [hx]))
          hsvle (by simp at hcount ⊢; omega) (by simp at hcount ⊢; omega) (by simp)
        rw [hrec]
        have h0 : n - sv.length = 0 := by omega
        rw [h0]
        simp

/-- Claim C5 (amended to `t ≥ 1`): a VENT block declaring total `t ≥ 1` and
dummy sub-count `d ≤ t`, followed by `2t` well-formed body lines, accumulates
both categories across the two passes (first `t-d` ordinary then `d` dummy
lines per pass) and merges them into one combined per-mesh vent list of
length exactly `t`, ordered ordinary vents first then dummy vents, each vent
pairing the positionally corresponding lines of its category. (For `t = 0`
the merge does not happen within the block's lines — see the
counterexample — and the empty list is appended only by the zero-count
terminator quirk of claim C6.) -/
theorem claim_C5 (t d : Nat) (countLine : String) (pass1 pass2 : List String)
    (hs1 : List VentFirstHalf) (hs2 : List VentSecondHalf) (p : PendingSmvFile)
    (ht : 1 ≤ t) (hd : d ≤ t)
    (hcw : startsWs countLine = true)
    (hct : ∃ t0 t1 rest, splitWhitespace countLine = t0 :: t1 :: rest ∧
      parseNat t0 = some t ∧ parseNat t1 = some d)
    (h1 : mapOpt (fun l => VentFirstHalf.fromStr (trimStr l)) pass1 = some hs1)
    (h2 : mapOpt (fun l => VentSecondHalf.fromStr (trimStr l)) pass2 = some hs2)
    (hb1 : ∀ l ∈ pass1, startsWs l = true)
    (hb2 : ∀ l ∈ pass2, startsWs l = true)
    (hl1 : pass1.length = t) (hl2 : pass2.length = t) :
    runLines ("VENT" :: countLine :: (pass1 ++ pass2)) ParserState.None p =
      .ok (.None, { p with vents := p.vents ++ [List.zipWith SmvVent.new hs1 hs2] }) ∧
    List.zipWith SmvVent.new hs1 hs2 =
      List.zipWith SmvVent.new (hs1.take (t - d)) (hs2.take (t - d)) ++
        List.zipWith SmvVent.new (hs1.drop (t - d)) (hs2.drop (t - d)) ∧
    (List.zipWith SmvVent.new hs1 hs2).length = t := by
  have hlen1 : hs1.length = t := by rw [mapOpt_length h1, hl1]
  have hlen2 : hs2.length = t := by rw [mapOpt_length h2, hl2]
  have hsplit : List.zipWith SmvVent.new hs1 hs2 =
      List.zipWith SmvVent.new (hs1.take (t - d)) (hs2.take (t - d)) ++
        List.zipWith SmvVent.new (hs1.drop (t - d)) (hs2.drop (t - d)) := by
    conv_lhs => rw [← List.take_append_drop (t - d) hs1,
      ← List.take_append_drop (t - d) hs2]
    rw [List.zipWith_append]
    simp [List.length_take, hlen1, hlen2]
  refine ⟨?_, hsplit, by simp [hlen1, hlen2]⟩
  have hVent : processLine ParserState.None p "VENT" = .ok (.Vent1, p) := rfl
  rw [runLines_cons, hVent]
  dsimp only
  obtain ⟨t0, t1c, rest, hsp, hp0, hp1⟩ := hct
  have hCount : handleLine .Vent1 p countLine = .ok (.Vent2 (t - d) [] d [], p) := by
    rw [handleLine, hsp]
    dsimp only
    rw [hp0, unwrapM]
    rw [hp1, unwrapM]
  rw [runLines_cons, processLine_of_startsWs hcw, hCount]
  dsimp only
  rw [runLines_append]
  have hfirst := vent2_fill pass1 hs1 (t - d) d [] [] p h1 hb1 (by simp) (by simp)
    (by simp [hl1]; omega) (by intro he; rw [he] at hl1; simp at hl1; omega)
  rw [hfirst]
  dsimp only
  simp only [List.nil_append, List.length_nil, Nat.sub_zero]
  have hsecond := vent3_fill pass2 hs2 (t - d) d (hs1.take (t - d)) (hs1.drop (t - d))
    [] [] p h2 hb2 (by simp) (by simp) (by simp [hl2]; omega)
    (by intro he; rw [he] at hl2; simp at hl2; omega)
  rw [hsecond]
  simp only [List.nil_append, List.length_nil, Nat.sub_zero, List.take_append_drop]

/-- Counterexample to claim C5 as stated: a VENT block declaring total 0 and
dummy 0 is followed by `2·0 = 0` body lines, yet after those lines no
combined per-mesh vent list (of length 0) has been appended — the parser is
still inside the block, and the empty list only appears when a later
non-whitespace terminator line arrives (claim C6's quirk). -/
theorem claim_C5_cex :
    runLines ["VENT", " 0 0"] ParserState.None PendingSmvFile.new =
      .ok (ParserState.Vent2 0 [] 0 [], PendingSmvFile.new) ∧
    PendingSmvFile.new.vents = [] := ⟨rfl, rfl⟩

/-- Claim C6: while a counted-list mode with declared length zero is active
(OBST with count 0, or VENT with total 0 and dummy 0), a non-whitespace line
finalizes the block as an empty per-mesh list and is then itself processed
as a block header from the no-active-block state; the header-only modes
FDSVERSION and REVISION are not reset by a non-whitespace line — they
consume it as block content. -/
theorem claim_C6 (L : String) (p : PendingSmvFile) (obstAcc : List ObstFirstHalf)
    (fv fd : List VentFirstHalf) (h : startsNonWs L = true) :
    processLine (.ObstBlock2 0 obstAcc) p L =
      processLine .None { p with obsts := p.obsts ++ [[]] } L ∧
    processLine (.Vent2 0 fv 0 fd) p L =
      processLine .None { p with vents := p.vents ++ [[]] } L ∧
    processLine .FdsVersion1 p L = .ok (.FdsVersion2, { p with fds_version := some L }) ∧
    processLine .FdsVersion2 p L = .ok (.None, { p with fds_version := some L }) ∧
    processLine .Revision p L = .ok (.None, { p with revision := some L }) := by
  refine ⟨?_, ?_, ?_, ?_, ?_⟩
  · rw [processLine_of_startsNonWs h, processLine_of_startsNonWs h]
    rfl
  · rw [processLine_of_startsNonWs h, processLine_of_startsNonWs h]
    rfl
  · rw [processLine_of_startsNonWs h]
    rfl
  · rw [processLine_of_startsNonWs h]
    rfl
  · rw [processLine_of_startsNonWs h]
    rfl

theorem claim_C6_witness :
    (processLine (.ObstBlock2 0 []) PendingSmvFile.new "OBST" =
      processLine .None { PendingSmvFile.new with
        obsts := PendingSmvFile.new.obsts ++ [[]] } "OBST") ∧
    (processLine (.Vent2 0 [] 0 []) PendingSmvFile.new "OBST" =
      processLine .None { PendingSmvFile.new with
        vents := PendingSmvFile.new.vents ++ [[]] } "OBST") ∧
    processLine .FdsVersion1 PendingSmvFile.new "OBST" =
      .ok (.FdsVersion2, { PendingSmvFile.new with fds_version := some "OBST" }) ∧
    processLine .FdsVersion2 PendingSmvFile.new "OBST" =
      .ok (.None, { PendingSmvFile.new with fds_version := some "OBST" }) ∧
    processLine .Revision PendingSmvFile.new "OBST" =
      .ok (.None, { PendingSmvFile.new with revision := some "OBST" }) :=
  claim_C6 "OBST" PendingSmvFile.new [] [] [] rfl

/-- Claim C1: a manifest is produced only when the eight per-mesh parallel
lists are balanced; any mismatch fails finalization with "mesh entries
unbalanced"; in a successful manifest the mesh count equals the grid count
and mesh `i` is assembled from the `i`-th entry of every parallel list, so
every per-mesh list count equals the mesh count; and `parse_smv_file`
returns a manifest only through this finalization of its final pending
aggregate. -/
theorem claim_C1 (p : PendingSmvFile) (f : SmvFile) :
    (tryFromPending p = .ok f →
      f.meshes.length = p.grids.length ∧
      p.obsts.length = p.grids.length ∧ p.vents.length = p.grids.length ∧
      p.trnx.length = p.grids.length ∧ p.trny.length = p.grids.length ∧
      p.trnz.length = p.grids.length ∧ p.pdims.length = p.grids.length ∧
      p.offsets.length = p.grids.length ∧
      (∀ i, i < f.meshes.length →
        ∃ g o v tx ty tz pd off,
          p.grids[i]? = some g ∧ p.obsts[i]? = some o ∧ p.vents[i]? = some v ∧
          p.trnx[i]? = some tx ∧ p.trny[i]? = some ty ∧ p.trnz[i]? = some tz ∧
          p.pdims[i]? = some pd ∧ p.offsets[i]? = some off ∧
          f.meshes[i]? = some (SmvMesh.new g o v tx ty tz pd off))) ∧
    (¬ (p.obsts.length = p.grids.length ∧ p.vents.length = p.grids.length ∧
        p.trnx.length = p.grids.length ∧ p.trny.length = p.grids.length ∧
        p.trnz.length = p.grids.length ∧ p.pdims.length = p.grids.length ∧
        p.offsets.length = p.grids.length) →
      tryFromPending p = .error (.err "mesh entries unbalanced")) ∧
    (∀ lines, parseSmvFile lines = .ok f →
      ∃ st q, runLines lines ParserState.None PendingSmvFile.new = .ok (st, q) ∧
        tryFromPending q = .ok f) := by
  refine ⟨?_, ?_, ?_⟩
  · intro h
    rw [tryFromPending] at h
    dsimp only at h
    split at h
    case isFalse => simp at h
    case isTrue hall =>
      simp only [List.all_cons, List.all_nil, Bool.and_eq_true, decide_eq_true_eq] at hall
      obtain ⟨-, ho, hv, htx, hty, htz, hpd, hoff, -⟩ := hall
      split at h
      case h_2 => simp at h
      case h_1 title chid inpf htitle hchid hinpf =>
        simp only [Except.ok.injEq] at h
        subst h
        dsimp only
        have hmk : (mkMeshes p).length = p.grids.length := by
          rw [mkMeshes]
          simp [List.length_zip, ho, hv, htx, hty, htz, hpd, hoff]
        refine ⟨hmk, ho, hv, htx, hty, htz, hpd, hoff, ?_⟩
        intro i hi
        rw [hmk] at hi
        have hio : i < p.obsts.length := by omega
        have hiv : i < p.vents.length := by omega
        have hitx : i < p.trnx.length := by omega
        have hity : i < p.trny.length := by omega
        have hitz : i < p.trnz.length := by omega
        have hipd : i < p.pdims.length := by omega
        have hioff : i < p.offsets.length := by omega
        refine ⟨p.grids[i], p.obsts[i], p.vents[i], p.trnx[i], p.trny[i],
          p.trnz[i], p.pdims[i], p.offsets[i],
          List.getElem?_eq_getElem hi, List.getElem?_eq_getElem hio,
          List.getElem?_eq_getElem hiv, List.getElem?_eq_getElem hitx,
          List.getElem?_eq_getElem hity, List.getElem?_eq_getElem hitz,
          List.getElem?_eq_getElem hipd, List.getElem?_eq_getElem hioff, ?_⟩
        rw [mkMeshes, List.getElem?_map, getElem?_zip', getElem?_zip', getElem?_zip',
          getElem?_zip', getElem?_zip', getElem?_zip', getElem?_zip']
        simp [List.getElem?_eq_getElem, hi, hio, hiv, hitx, hity, hitz, hipd, hioff]
  · intro hne
    rw [tryFromPending]
    dsimp only
    rw [if_neg ?_]
    intro hall
    apply hne
    simp only [List.all_cons, List.all_nil, Bool.and_eq_true, decide_eq_true_eq] at hall
    exact ⟨hall.2.1, hall.2.2.1, hall.2.2.2.1, hall.2.2.2.2.1, hall.2.2.2.2.2.1,
      hall.2.2.2.2.2.2.1, hall.2.2.2.2.2.2.2.1⟩
  · intro lines hps
    rw [parseSmvFile] at hps
    rcases hrun : runLines lines ParserState.None PendingSmvFile.new with e | ⟨st, q⟩
    · rw [hrun] at hps
      simp at hps
    · rw [hrun] at hps
      exact ⟨st, q, rfl, hps⟩

/-- One concrete grid block for the C1 witness. -/
def c1grid : GridBlock := ⟨"m", 1, 1, 1, 0⟩

/-- One concrete dimension block for the C1 witness. -/
def c1pdim : PdimBlock := ⟨"0", "1", "0", "1", "0", "1", ⟨"0", "0", "0"⟩⟩

/-- One concrete offset for the C1 witness. -/
def c1off : Xyz := ⟨"0", "0", "0"⟩

/-- A balanced single-mesh pending aggregate. -/
def c1pending : PendingSmvFile :=
  { PendingSmvFile.new with
    title := some "t"
    chid := some "c"
    input_filename := some "i"
    grids := [c1grid]
    obsts := [[]]
    vents := [[]]
    trnx := [[]]
    trny := [[]]
    trnz := [[]]
    pdims := [c1pdim]
    offsets := [c1off] }

/-- An unbalanced pending aggregate (a grid with no companion lists). -/
def c1unbal : PendingSmvFile := { PendingSmvFile.new with grids := [c1grid] }

/-- The manifest built from `c1pending`. -/
def c1file : SmvFile :=
  { title := "t", chid := "c", input_filename := "i", endf_filename := none,
    fds_version := none, surf_def := none, csvfs := [],
    meshes := [SmvMesh.new c1grid [] [] [] [] [] c1pdim c1off], surfs := [],
    xyzs := [], solid_ht3d := none, view_times := none, albedo := none,
    i_blank := none, gvec := none, events := [], device_acts := [], slcfs := [],
    prt5s := [], bndfs := [], devcs := [], texture_origin := none }

theorem claim_C1_witness :
    c1file.meshes.length = c1pending.grids.length ∧
    tryFromPending c1unbal = .error (.err "mesh entries unbalanced") :=
  ⟨((claim_C1 c1pending c1file).1 rfl).1, (claim_C1 c1unbal c1file).2.1 (by decide)⟩

/-- First-half obstruction line for the C4 witness. -/
def c4l1 : String := " 0.0 1.0 0.0 1.0 0.0 1.0 1 0 0 0 0 0 0"

/-- Second-half obstruction line for the C4 witness. -/
def c4l2 : String := " 0 1 0 1 0 1 0 0"

/-- Parsed first half of `c4l1`. -/
def c4h1 : ObstFirstHalf :=
  ⟨⟨"0.0", "1.0", "0.0", "1.0", "0.0", "1.0"⟩, 1, ⟨0, 0, 0, 0, 0, 0⟩, none⟩

/-- Parsed second half of `c4l2`. -/
def c4h2 : ObstSecondHalf := ⟨⟨0, 1, 0, 1, 0, 1⟩, 0, 0⟩

theorem claim_C4_witness :
    runLines ("OBST" :: " 1" :: ([c4l1] ++ [c4l2])) ParserState.None PendingSmvFile.new =
      .ok (.None, { PendingSmvFile.new with obsts := PendingSmvFile.new.obsts ++
        [List.zipWith SmvObst.new [c4h1] [c4h2]] }) ∧
    (List.zipWith SmvObst.new [c4h1] [c4h2]).length = 1 ∧
    (∀ i, i < 1 → ∃ a b, ([c4h1] : List ObstFirstHalf)[i]? = some a ∧
      ([c4h2] : List ObstSecondHalf)[i]? = some b ∧
      (List.zipWith SmvObst.new [c4h1] [c4h2])[i]? = some (SmvObst.new a b)) :=
  claim_C4 1 " 1" [c4l1] [c4l2] [c4h1] [c4h2] PendingSmvFile.new (by decide) rfl rfl
    rfl rfl (by decide) (by decide) rfl rfl

/-- Ordinary first-pass vent line for the C5 witness. -/
def c5o1 : String := " 0 1 0 1 0 1 5 6"

/-- Dummy first-pass vent line for the C5 witness. -/
def c5d1 : String := " 0 1 0 1 0 1 7 8"

/-- Ordinary second-pass vent line for the C5 witness. -/
def c5o2 : String := " 0 1 0 1 0 1 2 2 1 1 1 1"

/-- Dummy second-pass vent line for the C5 witness. -/
def c5d2 : String := " 1 1 1 1 1 1 3 4"

/-- Parsed first halves for the C5 witness. -/
def c5f1 : VentFirstHalf := ⟨⟨"0", "1", "0", "1", "0", "1"⟩, 5, 6, none⟩

/-- Parsed dummy first half for the C5 witness. -/
def c5f2 : VentFirstHalf := ⟨⟨"0", "1", "0", "1", "0", "1"⟩, 7, 8, none⟩

/-- Parsed ordinary second half for the C5 witness. -/
def c5s1 : VentSecondHalf := ⟨⟨0, 1, 0, 1, 0, 1⟩, 2, 2, some ⟨"1", "1", "1", "1"⟩⟩

/-- Parsed dummy second half for the C5 witness. -/
def c5s2 : VentSecondHalf := ⟨⟨1, 1, 1, 1, 1, 1⟩, 3, 4, none⟩

theorem claim_C5_witness :
    runLines ("VENT" :: " 2 1" :: ([c5o1, c5d1] ++ [c5o2, c5d2]))
        ParserState.None PendingSmvFile.new =
      .ok (.None, { PendingSmvFile.new with vents := PendingSmvFile.new.vents ++
        [List.zipWith SmvVent.new [c5f1, c5f2] [c5s1, c5s2]] }) ∧
    List.zipWith SmvVent.new [c5f1, c5f2] [c5s1, c5s2] =
      List.zipWith SmvVent.new (([c5f1, c5f2] : List VentFirstHalf).take (2 - 1))
          (([c5s1, c5s2] : List VentSecondHalf).take (2 - 1)) ++
        List.zipWith SmvVent.new (([c5f1, c5f2] : List VentFirstHalf).drop (2 - 1))
          (([c5s1, c5s2] : List VentSecondHalf).drop (2 - 1)) ∧
    (List.zipWith SmvVent.new [c5f1, c5f2] [c5s1, c5s2]).length = 2 :=
  claim_C5 2 1 " 2 1" [c5o1, c5d1] [c5o2, c5d2] [c5f1, c5f2] [c5s1, c5s2]
    PendingSmvFile.new (by decide) (by decide) rfl ⟨"2", "1", [], rfl, rfl, rfl⟩
    rfl rfl (by decide) (by decide) rfl rfl
